import Mathlib

/-!
Verification of the argus-go alert grouping service.

This file gives a shallow embedding of the core event-processing pipeline of
the repository: the domain model (Event, Alert, GroupingRule, EventManager),
the in-memory state store and alert repository, the ingest service's
partition-key computation, and the processor service's trigger/resolve
handlers.  Go maps are modelled as association lists with overwrite-on-insert
semantics, wall-clock time as an explicit natural-number parameter, and the
processor's calls to the state store, repository and notifier as pure state
transformations that also append to an effect trace (so that ordering and
frame properties of those calls can be stated).  Machine integers in the
SHA-256 computation are naturals reduced modulo 2^32 at each step.
-/

namespace ArgusGo

/-! ### Association-list maps (Go map semantics) -/

/-- Lookup in an association list keyed by strings (Go map read). -/
def mget {α : Type} : List (String × α) → String → Option α
  | [], _ => none
  | (k', v) :: rest, k => if k' = k then some v else mget rest k

/-- Remove a key from an association list (Go `delete`). -/
def mdel {α : Type} : List (String × α) → String → List (String × α)
  | [], _ => []
  | (k', v) :: rest, k =>
      if k' = k then mdel rest k else (k', v) :: mdel rest k

/-- Insert/overwrite a key in an association list (Go map assignment). -/
def mset {α : Type} (m : List (String × α)) (k : String) (v : α) :
    List (String × α) :=
  (k, v) :: mdel m k

/-! ### Domain model: events (internal/domain/event.go) -/

/-- Alert status constant (domain.AlertStatusActive). -/
def AlertStatusActive : String := "active"

/-- Alert status constant (domain.AlertStatusResolved). -/
def AlertStatusResolved : String := "resolved"

/-- Alert type constant (domain.AlertTypeParent). -/
def AlertTypeParent : String := "parent"

/-- Alert type constant (domain.AlertTypeChild). -/
def AlertTypeChild : String := "child"

/-- Action constant (domain.ActionTrigger). -/
def ActionTrigger : String := "trigger"

/-- Action constant (domain.ActionResolve). -/
def ActionResolve : String := "resolve"

/-- domain.Event: an incoming alert event from a client.  The Go `Class`
field is named `cls` here because `class` is a Lean keyword. -/
structure Event where
  eventManagerID : String
  summary : String
  severity : String
  action : String
  cls : String
  dedupKey : String
  deriving Repr, DecidableEq

/-- domain.Severity.IsValid. -/
def severityIsValid (s : String) : Bool :=
  s == "high" || s == "medium" || s == "low"

/-- domain.Action.IsValid. -/
def actionIsValid (a : String) : Bool :=
  a == "trigger" || a == "resolve"

/-- domain.Event.Validate: returns the first validation error message, or
none when the event is valid (Go returns an error or nil). -/
def Event.Validate (e : Event) : Option String :=
  if e.eventManagerID == "" then some "event_manager_id is required"
  else if e.summary == "" then some "summary is required"
  else if !(severityIsValid e.severity) then
    some "severity must be high, medium, or low"
  else if !(actionIsValid e.action) then
    some "action must be trigger or resolve"
  else if e.dedupKey == "" then some "dedupKey is required"
  else none

/-- domain.InternalEvent: the event enriched with routing data.  The Go
struct embeds Event; here that is the `event` field. -/
structure InternalEvent where
  event : Event
  partitionKey : String
  groupingValue : String
  receivedAt : Nat
  deriving Repr, DecidableEq

/-! ### Domain model: event manager and grouping rule -/

/-- domain.NotificationConfig. -/
structure NotificationConfig where
  webhookURL : String
  deriving Repr, DecidableEq

/-- domain.EventManager: the tenant/namespace abstraction. -/
structure EventManager where
  id : String
  name : String
  description : String
  groupingRuleID : String
  notificationConfig : NotificationConfig
  createdAt : Nat
  updatedAt : Nat
  deriving Repr, DecidableEq

/-- domain.GroupingRule. -/
structure GroupingRule where
  id : String
  name : String
  groupingKey : String
  timeWindowMinutes : Nat
  createdAt : Nat
  updatedAt : Nat
  deriving Repr, DecidableEq

/-- domain.GroupingRule.TimeWindow: the window as a duration in nanoseconds
(Go time.Duration is an integer nanosecond count). -/
def GroupingRule.TimeWindow (gr : GroupingRule) : Nat :=
  gr.timeWindowMinutes * 60000000000

/-- domain.GroupingRule.ExtractGroupingValue: project the grouping key out of
an event; unknown keys project to the empty string. -/
def GroupingRule.ExtractGroupingValue (gr : GroupingRule) (e : Event) : String :=
  if gr.groupingKey = "class" then e.cls
  else if gr.groupingKey = "severity" then e.severity
  else if gr.groupingKey = "event_manager_id" then e.eventManagerID
  else ""

/-! ### Domain model: alerts (internal/domain/alert.go) -/

/-- domain.Alert: the durable alert record. -/
structure Alert where
  id : String
  dedupKey : String
  eventManagerID : String
  summary : String
  severity : String
  cls : String
  type : String
  status : String
  parentDedupKey : String
  childCount : Nat
  resolveRequested : Bool
  createdAt : Nat
  updatedAt : Nat
  resolvedAt : Option Nat
  deriving Repr, DecidableEq

/-- domain.NewParentAlert: build a parent alert from an event; `now` stands
for the Go call to time.Now().UTC(). -/
def NewParentAlert (e : Event) (now : Nat) : Alert :=
  { id := ""
    dedupKey := e.dedupKey
    eventManagerID := e.eventManagerID
    summary := e.summary
    severity := e.severity
    cls := e.cls
    type := AlertTypeParent
    status := AlertStatusActive
    parentDedupKey := ""
    childCount := 0
    resolveRequested := false
    createdAt := now
    updatedAt := now
    resolvedAt := none }

/-- domain.NewChildAlert: build a child alert linked to a parent. -/
def NewChildAlert (e : Event) (parentDedupKey : String) (now : Nat) : Alert :=
  { id := ""
    dedupKey := e.dedupKey
    eventManagerID := e.eventManagerID
    summary := e.summary
    severity := e.severity
    cls := e.cls
    type := AlertTypeChild
    status := AlertStatusActive
    parentDedupKey := parentDedupKey
    childCount := 0
    resolveRequested := false
    createdAt := now
    updatedAt := now
    resolvedAt := none }

/-- domain.Alert.IsChild. -/
def Alert.IsChild (a : Alert) : Bool := a.type == AlertTypeChild

/-- domain.Alert.IsActive. -/
def Alert.IsActive (a : Alert) : Bool := a.status == AlertStatusActive

/-- domain.Alert.Resolve: mark the alert resolved at time `now`. -/
def Alert.Resolve (a : Alert) (now : Nat) : Alert :=
  { a with status := AlertStatusResolved
           updatedAt := now
           resolvedAt := some now
           resolveRequested := false }

/-- domain.Alert.MarkResolveRequested. -/
def Alert.MarkResolveRequested (a : Alert) (now : Nat) : Alert :=
  { a with resolveRequested := true, updatedAt := now }

/-- domain.Alert.IncrementChildCount. -/
def Alert.IncrementChildCount (a : Alert) (now : Nat) : Alert :=
  { a with childCount := a.childCount + 1, updatedAt := now }

/-! ### SHA-256 (the ingest service's partition key hash)

The ingest service calls Go's crypto/sha256.  The hash is embedded here as a
pure function on byte lists; 32-bit words are naturals reduced modulo 2^32. -/

/-- 2^32, the modulus for 32-bit words. -/
def w32 : Nat := 4294967296

/-- 32-bit addition. -/
def add32 (a b : Nat) : Nat := (a + b) % w32

/-- Right rotation of a 32-bit word by `n` bits. -/
def rotr32 (n x : Nat) : Nat := x / 2 ^ n + x % 2 ^ n * 2 ^ (32 - n)

/-- SHA-256 small sigma 0. -/
def ssig0 (x : Nat) : Nat :=
  Nat.xor (Nat.xor (rotr32 7 x) (rotr32 18 x)) (x / 2 ^ 3)

/-- SHA-256 small sigma 1. -/
def ssig1 (x : Nat) : Nat :=
  Nat.xor (Nat.xor (rotr32 17 x) (rotr32 19 x)) (x / 2 ^ 10)

/-- SHA-256 big sigma 0. -/
def bsig0 (x : Nat) : Nat :=
  Nat.xor (Nat.xor (rotr32 2 x) (rotr32 13 x)) (rotr32 22 x)

/-- SHA-256 big sigma 1. -/
def bsig1 (x : Nat) : Nat :=
  Nat.xor (Nat.xor (rotr32 6 x) (rotr32 11 x)) (rotr32 25 x)

/-- SHA-256 choose function. -/
def ch32 (x y z : Nat) : Nat :=
  Nat.xor (Nat.land x y) (Nat.land (w32 - 1 - x % w32) z)

/-- SHA-256 majority function. -/
def maj32 (x y z : Nat) : Nat :=
  Nat.xor (Nat.xor (Nat.land x y) (Nat.land x z)) (Nat.land y z)

/-- The 64 SHA-256 round constants. -/
def sha256K : List Nat :=
  [1116352408, 1899447441, 3049323471, 3921009573, 961987163, 1508970993,
   2453635748, 2870763221, 3624381080, 310598401, 607225278, 1426881987,
   1925078388, 2162078206, 2614888103, 3248222580, 3835390401, 4022224774,
   264347078, 604807628, 770255983, 1249150122, 1555081692, 1996064986,
   2554220882, 2821834349, 2952996808, 3210313671, 3336571891, 3584528711,
   113926993, 338241895, 666307205, 773529912, 1294757372, 1396182291,
   1695183700, 1986661051, 2177026350, 2456956037, 2730485921, 2820302411,
   3259730800, 3345764771, 3516065817, 3600352804, 4094571909, 275423344,
   430227734, 506948616, 659060556, 883997877, 958139571, 1322822218,
   1537002063, 1747873779, 1955562222, 2024104815, 2227730452, 2361852424,
   2428436474, 2756734187, 3204031479, 3329325298]

/-- SHA-256 hash state: eight 32-bit words. -/
structure Sha256State where
  h0 : Nat
  h1 : Nat
  h2 : Nat
  h3 : Nat
  h4 : Nat
  h5 : Nat
  h6 : Nat
  h7 : Nat
  deriving Repr, DecidableEq

/-- The SHA-256 initial hash value. -/
def sha256Init : Sha256State :=
  ⟨1779033703, 3144134277, 1013904242, 2773480762,
   1359893119, 2600822924, 528734635, 1541459225⟩

/-- Parse a 64-byte chunk into its sixteen big-endian 32-bit words. -/
def chunkWords (chunk : List Nat) : List Nat :=
  (List.range 16).map fun j =>
    chunk.getD (4 * j) 0 * 16777216 + chunk.getD (4 * j + 1) 0 * 65536 +
      chunk.getD (4 * j + 2) 0 * 256 + chunk.getD (4 * j + 3) 0

/-- Extend sixteen message words to the 64-entry message schedule. -/
def msgSchedule (ws : List Nat) : List Nat :=
  (List.range 48).foldl
    (fun w i =>
      w ++ [(ssig1 (w.getD (i + 14) 0) + w.getD (i + 9) 0 +
             ssig0 (w.getD (i + 1) 0) + w.getD i 0) % w32])
    ws

/-- One SHA-256 compression round. -/
def sha256Round (st : Sha256State) (kw : Nat × Nat) : Sha256State :=
  let t1 := (st.h7 + bsig1 st.h4 + ch32 st.h4 st.h5 st.h6 + kw.1 + kw.2) % w32
  let t2 := (bsig0 st.h0 + maj32 st.h0 st.h1 st.h2) % w32
  ⟨(t1 + t2) % w32, st.h0, st.h1, st.h2, (st.h3 + t1) % w32, st.h4, st.h5, st.h6⟩

/-- Compress one 64-byte chunk into the hash state. -/
def sha256Compress (st : Sha256State) (chunk : List Nat) : Sha256State :=
  let w := msgSchedule (chunkWords chunk)
  let f := (sha256K.zip w).foldl sha256Round st
  ⟨add32 st.h0 f.h0, add32 st.h1 f.h1, add32 st.h2 f.h2, add32 st.h3 f.h3,
   add32 st.h4 f.h4, add32 st.h5 f.h5, add32 st.h6 f.h6, add32 st.h7 f.h7⟩

/-- SHA-256 padding: append 0x80, zeros, and the 64-bit big-endian bit
length so the total length is a multiple of 64. -/
def sha256Pad (msg : List Nat) : List Nat :=
  let len := msg.length
  let bits := len * 8
  let zeros := (119 - len % 64) % 64
  msg ++ [128] ++ List.replicate zeros 0 ++
    [bits / 2 ^ 56 % 256, bits / 2 ^ 48 % 256, bits / 2 ^ 40 % 256,
     bits / 2 ^ 32 % 256, bits / 2 ^ 24 % 256, bits / 2 ^ 16 % 256,
     bits / 2 ^ 8 % 256, bits % 256]

/-- Serialize a 32-bit word to four big-endian bytes. -/
def wordBytes (x : Nat) : List Nat :=
  [x / 16777216 % 256, x / 65536 % 256, x / 256 % 256, x % 256]

/-- SHA-256 of a byte list: pad, compress each 64-byte chunk, serialize. -/
def sha256 (msg : List Nat) : List Nat :=
  let padded := sha256Pad msg
  let final :=
    (List.range (padded.length / 64)).foldl
      (fun st i => sha256Compress st ((padded.drop (64 * i)).take 64))
      sha256Init
  wordBytes final.h0 ++ wordBytes final.h1 ++ wordBytes final.h2 ++
    wordBytes final.h3 ++ wordBytes final.h4 ++ wordBytes final.h5 ++
    wordBytes final.h6 ++ wordBytes final.h7

/-- UTF-8 encoding of a single character (Go's []byte(string) conversion). -/
def charUTF8 (c : Char) : List Nat :=
  let n := c.toNat
  if n < 128 then [n]
  else if n < 2048 then [192 + n / 64, 128 + n % 64]
  else if n < 65536 then
    [224 + n / 4096, 128 + n / 64 % 64, 128 + n % 64]
  else
    [240 + n / 262144, 128 + n / 4096 % 64, 128 + n / 64 % 64, 128 + n % 64]

/-- UTF-8 bytes of a string. -/
def strBytes (s : String) : List Nat := (s.data.map charUTF8).flatten

/-- One lowercase hexadecimal digit. -/
def hexChar (n : Nat) : Char :=
  if n < 10 then Char.ofNat (48 + n) else Char.ofNat (87 + n)

/-- Two-character lowercase hex encoding of one byte. -/
def byteHex (b : Nat) : List Char := [hexChar (b / 16), hexChar (b % 16)]

/-- Lowercase hex encoding of a byte list (Go hex.EncodeToString). -/
def hexEncode (bs : List Nat) : String :=
  String.mk (bs.map byteHex).flatten

/-- ingest.computePartitionKey: hex of the first 8 bytes of the SHA-256 of
eventManagerID ++ ":" ++ groupingValue. -/
def computePartitionKey (eventManagerID groupingValue : String) : String :=
  let input := eventManagerID ++ ":" ++ groupingValue
  let hash := sha256 (strBytes input)
  hexEncode (hash.take 8)

/-- The partition key as the spec words it, for comparison with the source
definition: hex(first 8 bytes of SHA-256 of the tenant id, a colon, and the
grouping value). -/
def specPartitionKey (tenantID groupingValue : String) : String :=
  hexEncode ((sha256 (strBytes (tenantID ++ ":" ++ groupingValue))).take 8)

/-! ### State store values and the in-memory state store
(internal/store/state_store.go, internal/store/memory/state_store.go) -/

/-- store.ParentState: cached parent-alert state used for grouping lookups. -/
structure ParentState where
  dedupKey : String
  createdAt : Nat
  childCount : Nat
  deriving Repr, DecidableEq

/-- store.AlertState: cached state of any alert, keyed by dedup key. -/
structure AlertState where
  dedupKey : String
  eventManagerID : String
  type : String
  status : String
  parentDedupKey : String
  resolveRequested : Bool
  deriving Repr, DecidableEq

/-- store.PendingResolve: a parent waiting for its children to resolve. -/
structure PendingResolve where
  requestedAt : Nat
  remainingChildren : Nat
  deriving Repr, DecidableEq

/-- memory.parentEntry: a ParentState with its expiration instant. -/
structure ParentEntry where
  state : ParentState
  expiresAt : Nat
  deriving Repr, DecidableEq

/-- memory.StateStore: the in-memory hot state.  The four Go maps become
association lists; the children sets become string lists. -/
structure StateStore where
  parents : List (String × ParentEntry)
  alerts : List (String × AlertState)
  children : List (String × List String)
  pendingResolves : List (String × PendingResolve)
  deriving Repr, DecidableEq

/-- memory.parentKey: composite key for the parent lookup. -/
def parentKey (eventManagerID groupingKey groupingValue : String) : String :=
  eventManagerID ++ ":" ++ groupingKey ++ ":" ++ groupingValue

/-- memory.StateStore.GetParent: lookup with lazy TTL expiration; an entry
whose expiry is strictly before `now` reads as absent. -/
def StateStore.GetParent (s : StateStore) (now : Nat)
    (eventManagerID groupingKey groupingValue : String) : Option ParentState :=
  match mget s.parents (parentKey eventManagerID groupingKey groupingValue) with
  | none => none
  | some entry => if now > entry.expiresAt then none else some entry.state

/-- memory.StateStore.SetParent: store a parent entry expiring at now+ttl. -/
def StateStore.SetParent (s : StateStore) (now : Nat)
    (eventManagerID groupingKey groupingValue : String)
    (state : ParentState) (ttl : Nat) : StateStore :=
  let k := parentKey eventManagerID groupingKey groupingValue
  { s with parents := mset s.parents k ⟨state, now + ttl⟩ }

/-- memory.StateStore.GetAlert. -/
def StateStore.GetAlert (s : StateStore) (dedupKey : String) :
    Option AlertState :=
  mget s.alerts dedupKey

/-- memory.StateStore.SetAlert: keyed by the state's dedup key. -/
def StateStore.SetAlert (s : StateStore) (state : AlertState) : StateStore :=
  { s with alerts := mset s.alerts state.dedupKey state }

/-- memory.StateStore.AddChild: add to the parent's children set. -/
def StateStore.AddChild (s : StateStore) (parentDedupKey childDedupKey : String) :
    StateStore :=
  let bucket := (mget s.children parentDedupKey).getD []
  let bucket' := if childDedupKey ∈ bucket then bucket
                 else bucket ++ [childDedupKey]
  { s with children := mset s.children parentDedupKey bucket' }

/-- memory.StateStore.GetPendingResolve. -/
def StateStore.GetPendingResolve (s : StateStore) (parentDedupKey : String) :
    Option PendingResolve :=
  mget s.pendingResolves parentDedupKey

/-- memory.StateStore.SetPendingResolve. -/
def StateStore.SetPendingResolve (s : StateStore) (parentDedupKey : String)
    (pending : PendingResolve) : StateStore :=
  { s with pendingResolves := mset s.pendingResolves parentDedupKey pending }

/-- memory.StateStore.DeletePendingResolve. -/
def StateStore.DeletePendingResolve (s : StateStore)
    (parentDedupKey : String) : StateStore :=
  { s with pendingResolves := mdel s.pendingResolves parentDedupKey }

/-! ### In-memory alert repository (internal/store/memory/alert_repository.go) -/

/-- memory.AlertRepository: alerts by ID, a dedup-key index, and a
parent index whose buckets are keyed by child dedup key. -/
structure AlertRepository where
  alerts : List (String × Alert)
  byDedupKey : List (String × Alert)
  byParent : List (String × List (String × Alert))
  deriving Repr, DecidableEq

/-- The parent-bucket insertion shared by Create and Update: index a child
record under its parent's bucket, keyed by the child's dedup key. -/
def childIndex (bp : List (String × List (String × Alert))) (a : Alert) :
    List (String × List (String × Alert)) :=
  if a.IsChild && a.parentDedupKey != "" then
    mset bp a.parentDedupKey
      (mset ((mget bp a.parentDedupKey).getD []) a.dedupKey a)
  else bp

/-- memory.AlertRepository.Create: index by ID and dedup key, and under the
parent bucket when the alert is a child.  Never fails, and enforces no
uniqueness: an existing dedup-key index entry is silently overwritten. -/
def AlertRepository.Create (r : AlertRepository) (a : Alert) :
    AlertRepository :=
  { alerts := mset r.alerts a.id a
    byDedupKey := mset r.byDedupKey a.dedupKey a
    byParent := childIndex r.byParent a }

/-- The byParent maintenance performed by Update: re-index a child record,
then drop the old bucket entry when the record's parent key changed. -/
def updateByParent (bp : List (String × List (String × Alert)))
    (existing a : Alert) : List (String × List (String × Alert)) :=
  let bp1 := childIndex bp a
  if existing.parentDedupKey != "" &&
      existing.parentDedupKey != a.parentDedupKey then
    match mget bp1 existing.parentDedupKey with
    | none => bp1
    | some b => mset bp1 existing.parentDedupKey (mdel b existing.dedupKey)
  else bp1

/-- memory.AlertRepository.Update: fails (returns none, Go ErrAlertNotFound)
when no record exists under the alert's ID; otherwise overwrites the ID and
dedup-key entries and maintains the parent index. -/
def AlertRepository.Update (r : AlertRepository) (a : Alert) :
    Option AlertRepository :=
  match mget r.alerts a.id with
  | none => none
  | some existing =>
    some { alerts := mset r.alerts a.id a
           byDedupKey := mset r.byDedupKey a.dedupKey a
           byParent := updateByParent r.byParent existing a }

/-- memory.AlertRepository.GetByDedupKey (read through the dedup index). -/
def AlertRepository.GetByDedupKey (r : AlertRepository) (dedupKey : String) :
    Option Alert :=
  mget r.byDedupKey dedupKey

/-- memory.AlertRepository.CountActiveChildren: the number of active alerts
in the parent's bucket. -/
def AlertRepository.CountActiveChildren (r : AlertRepository)
    (parentDedupKey : String) : Nat :=
  match mget r.byParent parentDedupKey with
  | none => 0
  | some bucket => (bucket.filter fun p => p.2.IsActive).length

/-! ### Processor service (internal/processor/service.go)

The processor's collaborators are modelled as: `Env` for the read-only event
manager and grouping rule repositories, `Sys` for the mutable state store and
alert repository plus a chronological trace of the calls that mutate state or
notify.  Each handler returns the resulting `Sys` and an optional error
message (Go's returned error; none acknowledges the message).  Errors leave
the mutations already performed in place, as in the source. -/

/-- One mutating or notifying call made by the processor, in call order. -/
inductive Effect where
  | setAlert (st : AlertState)
  | setParent (eventManagerID groupingKey groupingValue : String)
      (ps : ParentState) (ttl : Nat)
  | addChild (parentDedupKey childDedupKey : String)
  | setPendingResolve (parentDedupKey : String) (p : PendingResolve)
  | deletePendingResolve (parentDedupKey : String)
  | repoCreate (a : Alert)
  | repoUpdate (a : Alert)
  | notifyNewParent (a : Alert) (em : EventManager)
  | notifyResolved (a : Alert) (em : EventManager)
  deriving Repr, DecidableEq

/-- Read-only environment: event manager and grouping rule repositories
(memory.EventManagerRepository / memory.GroupingRuleRepository, GetByID). -/
structure Env where
  emRepo : List (String × EventManager)
  ruleRepo : List (String × GroupingRule)

/-- The processor's mutable world: hot state, durable repository, and the
trace of effects performed so far. -/
structure Sys where
  store : StateStore
  repo : AlertRepository
  effects : List Effect

/-- The empty initial world. -/
def initSys : Sys :=
  ⟨⟨[], [], [], []⟩, ⟨[], [], []⟩, []⟩

/-- stateStore.SetAlert as a step of the processor. -/
def Sys.doSetAlert (sys : Sys) (st : AlertState) : Sys :=
  { sys with store := sys.store.SetAlert st
             effects := sys.effects ++ [Effect.setAlert st] }

/-- stateStore.SetParent as a step of the processor. -/
def Sys.doSetParent (sys : Sys) (now : Nat)
    (eventManagerID groupingKey groupingValue : String)
    (ps : ParentState) (ttl : Nat) : Sys :=
  { sys with
      store := sys.store.SetParent now eventManagerID groupingKey
        groupingValue ps ttl
      effects := sys.effects ++
        [Effect.setParent eventManagerID groupingKey groupingValue ps ttl] }

/-- stateStore.AddChild as a step of the processor. -/
def Sys.doAddChild (sys : Sys) (parentDedupKey childDedupKey : String) : Sys :=
  { sys with store := sys.store.AddChild parentDedupKey childDedupKey
             effects := sys.effects ++
               [Effect.addChild parentDedupKey childDedupKey] }

/-- stateStore.SetPendingResolve as a step of the processor. -/
def Sys.doSetPendingResolve (sys : Sys) (parentDedupKey : String)
    (p : PendingResolve) : Sys :=
  { sys with store := sys.store.SetPendingResolve parentDedupKey p
             effects := sys.effects ++
               [Effect.setPendingResolve parentDedupKey p] }

/-- stateStore.DeletePendingResolve as a step of the processor. -/
def Sys.doDeletePendingResolve (sys : Sys) (parentDedupKey : String) : Sys :=
  { sys with store := sys.store.DeletePendingResolve parentDedupKey
             effects := sys.effects ++
               [Effect.deletePendingResolve parentDedupKey] }

/-- alertRepo.Create as a step of the processor. -/
def Sys.doRepoCreate (sys : Sys) (a : Alert) : Sys :=
  { sys with repo := sys.repo.Create a
             effects := sys.effects ++ [Effect.repoCreate a] }

/-- alertRepo.Update's successful outcome as a step of the processor (the
callers match on repo.Update and only enter this on some). -/
def Sys.withRepo (sys : Sys) (r' : AlertRepository) (a : Alert) : Sys :=
  { sys with repo := r'
             effects := sys.effects ++ [Effect.repoUpdate a] }

/-- notifier.NotifyNewParent as a step of the processor. -/
def Sys.doNotifyNewParent (sys : Sys) (a : Alert) (em : EventManager) : Sys :=
  { sys with effects := sys.effects ++ [Effect.notifyNewParent a em] }

/-- notifier.NotifyResolved as a step of the processor. -/
def Sys.doNotifyResolved (sys : Sys) (a : Alert) (em : EventManager) : Sys :=
  { sys with effects := sys.effects ++ [Effect.notifyResolved a em] }

/-- Service.createParentAlert.  `newID` stands for the freshly minted UUID;
`now` for time.Now() during this handler. -/
def createParentAlert (now : Nat) (newID : String) (ev : InternalEvent)
    (rule : GroupingRule) (em : EventManager) (sys : Sys) :
    Sys × Option String :=
  let alert := { NewParentAlert ev.event now with id := newID }
  let alertState : AlertState :=
    { dedupKey := alert.dedupKey
      eventManagerID := alert.eventManagerID
      type := alert.type
      status := alert.status
      parentDedupKey := ""
      resolveRequested := false }
  let sys1 := sys.doSetAlert alertState
  let ps : ParentState :=
    { dedupKey := alert.dedupKey, createdAt := alert.createdAt, childCount := 0 }
  let sys2 := sys1.doSetParent now ev.event.eventManagerID rule.groupingKey
    ev.groupingValue ps rule.TimeWindow
  let sys3 := sys2.doRepoCreate alert
  let sys4 := sys3.doNotifyNewParent alert em
  (sys4, none)

/-- Service.createChildAlert.  The grouping rule is passed but unused, as in
the source (child creation does not refresh the parent's TTL). -/
def createChildAlert (now : Nat) (newID : String) (ev : InternalEvent)
    (parentState : ParentState) (rule : GroupingRule) (sys : Sys) :
    Sys × Option String :=
  let alert := { NewChildAlert ev.event parentState.dedupKey now with
                   id := newID }
  let alertState : AlertState :=
    { dedupKey := alert.dedupKey
      eventManagerID := alert.eventManagerID
      type := alert.type
      status := alert.status
      parentDedupKey := alert.parentDedupKey
      resolveRequested := false }
  let sys1 := sys.doSetAlert alertState
  let sys2 := sys1.doAddChild parentState.dedupKey alert.dedupKey
  let sys3 := sys2.doRepoCreate alert
  match sys3.repo.GetByDedupKey parentState.dedupKey with
  | none => (sys3, none)
  | some parentAlert =>
    let pa := parentAlert.IncrementChildCount now
    match sys3.repo.Update pa with
    | none => (sys3, none)
    | some r' => (sys3.withRepo r' pa, none)

/-- Service.reactivateAlert: flip a resolved alert back to active in state
and repository. -/
def reactivateAlert (now : Nat) (ev : InternalEvent)
    (existingState : AlertState) (sys : Sys) : Sys × Option String :=
  let st' := { existingState with status := AlertStatusActive
                                  resolveRequested := false }
  let sys1 := sys.doSetAlert st'
  match sys1.repo.GetByDedupKey ev.event.dedupKey with
  | none => (sys1, some "alert not found")
  | some alert =>
    let a' := { alert with status := AlertStatusActive
                           resolveRequested := false
                           resolvedAt := none
                           updatedAt := now }
    match sys1.repo.Update a' with
    | none => (sys1, some "alert not found")
    | some r' => (sys1.withRepo r' a', none)

/-- Service.handleTrigger: dedup guard, then reactivation, child creation or
parent creation. -/
def handleTrigger (env : Env) (now : Nat) (newID : String)
    (ev : InternalEvent) (sys : Sys) : Sys × Option String :=
  match sys.store.GetAlert ev.event.dedupKey with
  | some existingAlert =>
    if existingAlert.status == AlertStatusResolved then
      reactivateAlert now ev existingAlert sys
    else
      (sys, none)
  | none =>
    match mget env.emRepo ev.event.eventManagerID with
    | none => (sys, some "event manager not found")
    | some em =>
      match mget env.ruleRepo em.groupingRuleID with
      | none => (sys, some "grouping rule not found")
      | some groupingRule =>
        match sys.store.GetParent now ev.event.eventManagerID
            groupingRule.groupingKey ev.groupingValue with
        | some parentState =>
          createChildAlert now newID ev parentState groupingRule sys
        | none =>
          createParentAlert now newID ev groupingRule em sys

/-- Service.completeParentResolution: finalize a parent's resolution. -/
def completeParentResolution (env : Env) (now : Nat) (dedupKey : String)
    (alertState : AlertState) (sys : Sys) : Sys × Option String :=
  let st' := { alertState with status := AlertStatusResolved
                               resolveRequested := false }
  let sys1 := sys.doSetAlert st'
  let sys2 := sys1.doDeletePendingResolve dedupKey
  match sys2.repo.GetByDedupKey dedupKey with
  | none => (sys2, some "alert not found")
  | some alert =>
    let a' := alert.Resolve now
    match sys2.repo.Update a' with
    | none => (sys2, some "alert not found")
    | some r' =>
      let sys3 := sys2.withRepo r' a'
      match mget env.emRepo alertState.eventManagerID with
      | none => (sys3, none)
      | some em => (sys3.doNotifyResolved a' em, none)

/-- Service.checkParentResolution: the probe run after a child resolves. -/
def checkParentResolution (env : Env) (now : Nat) (parentDedupKey : String)
    (sys : Sys) : Sys × Option String :=
  match sys.store.GetPendingResolve parentDedupKey with
  | none => (sys, none)
  | some pending =>
    let activeChildren := sys.repo.CountActiveChildren parentDedupKey
    if activeChildren > 0 then
      (sys.doSetPendingResolve parentDedupKey
        { pending with remainingChildren := activeChildren }, none)
    else
      match sys.store.GetAlert parentDedupKey with
      | none => (sys, some "parent alert state not found")
      | some parentState =>
        completeParentResolution env now parentDedupKey parentState sys

/-- Service.resolveChildAlert. -/
def resolveChildAlert (env : Env) (now : Nat) (ev : InternalEvent)
    (alertState : AlertState) (sys : Sys) : Sys × Option String :=
  let st' := { alertState with status := AlertStatusResolved }
  let sys1 := sys.doSetAlert st'
  match sys1.repo.GetByDedupKey ev.event.dedupKey with
  | none => (sys1, some "alert not found")
  | some alert =>
    let a' := alert.Resolve now
    match sys1.repo.Update a' with
    | none => (sys1, some "alert not found")
    | some r' =>
      let sys2 := sys1.withRepo r' a'
      if st'.parentDedupKey != "" then
        checkParentResolution env now st'.parentDedupKey sys2
      else
        (sys2, none)

/-- Service.resolveParentAlert: count active children first; defer with a
pending-resolve entry when any remain, else resolve immediately. -/
def resolveParentAlert (env : Env) (now : Nat) (ev : InternalEvent)
    (alertState : AlertState) (sys : Sys) : Sys × Option String :=
  let activeChildren := sys.repo.CountActiveChildren ev.event.dedupKey
  if activeChildren > 0 then
    let st' := { alertState with resolveRequested := true }
    let sys1 := sys.doSetAlert st'
    let pending : PendingResolve :=
      { requestedAt := now, remainingChildren := activeChildren }
    let sys2 := sys1.doSetPendingResolve ev.event.dedupKey pending
    match sys2.repo.GetByDedupKey ev.event.dedupKey with
    | none => (sys2, some "alert not found")
    | some alert =>
      let a' := alert.MarkResolveRequested now
      match sys2.repo.Update a' with
      | none => (sys2, some "alert not found")
      | some r' => (sys2.withRepo r' a', none)
  else
    completeParentResolution env now ev.event.dedupKey alertState sys

/-- Service.handleResolve: route a resolve event. -/
def handleResolve (env : Env) (now : Nat) (ev : InternalEvent) (sys : Sys) :
    Sys × Option String :=
  match sys.store.GetAlert ev.event.dedupKey with
  | none => (sys, none)
  | some alertState =>
    if alertState.status == AlertStatusResolved then
      (sys, none)
    else if alertState.type == AlertTypeChild then
      resolveChildAlert env now ev alertState sys
    else
      resolveParentAlert env now ev alertState sys

/-- Service.handleMessage's dispatch on the event action (deserialization
failures and unknown actions acknowledge without mutation). -/
def processEvent (env : Env) (now : Nat) (newID : String)
    (ev : InternalEvent) (sys : Sys) : Sys × Option String :=
  if ev.event.action == ActionTrigger then
    handleTrigger env now newID ev sys
  else if ev.event.action == ActionResolve then
    handleResolve env now ev sys
  else
    (sys, none)

/-- One consumed message: its processing time, the UUID the handler would
mint, and the event payload. -/
structure TraceStep where
  now : Nat
  newID : String
  event : InternalEvent

/-- Run the processor over a sequence of messages from the empty world. -/
def runTrace (env : Env) (steps : List TraceStep) : Sys :=
  steps.foldl (fun sys s => (processEvent env s.now s.newID s.event sys).1)
    initSys

/-! ### Repository/state consistency invariant (for deduplication exclusivity) -/

/-- Consistency of the alert repository with the state store's alert-state
map `sa`: ID entries carry their own ID, the dedup index points at live ID
entries and vice versa, and every durable record's dedup key has an
alert-state entry (the processor's get-alert guard). -/
structure RepoInv (r : AlertRepository) (sa : List (String × AlertState)) :
    Prop where
  idOK : ∀ id a, mget r.alerts id = some a → a.id = id
  bdOK : ∀ k a, mget r.byDedupKey k = some a →
    a.dedupKey = k ∧ mget r.alerts a.id = some a
  irOK : ∀ id a, mget r.alerts id = some a →
    mget r.byDedupKey a.dedupKey = some a
  stOK : ∀ id a, mget r.alerts id = some a →
    (mget sa a.dedupKey).isSome = true

/-- The processor's reachable-world invariant. -/
def Inv (sys : Sys) : Prop := RepoInv sys.repo sys.store.alerts

/-- The sixteen lowercase hexadecimal digits. -/
def hexDigits : List Char := "0123456789abcdef".data

/-! ### Concrete fixtures used by the witness theorems -/

/-- Fixture: an event manager bound to grouping rule r1. -/
def emW : EventManager := ⟨"em-1", "team", "", "r1", ⟨""⟩, 0, 0⟩

/-- Fixture: a grouping rule on the class field with a 5-minute window. -/
def ruleW : GroupingRule := ⟨"r1", "by-class", "class", 5, 0, 0⟩

/-- Fixture: environment containing emW and ruleW. -/
def envW : Env := ⟨[("em-1", emW)], [("r1", ruleW)]⟩

/-- Fixture: a trigger event with dedup key a. -/
def evTrigA : InternalEvent :=
  ⟨⟨"em-1", "s", "high", "trigger", "db", "a"⟩, "pk", "db", 0⟩

/-- Fixture: a trigger event with dedup key b. -/
def evTrigB : InternalEvent :=
  ⟨⟨"em-1", "s", "high", "trigger", "db", "b"⟩, "pk", "db", 0⟩

/-- Fixture: a resolve event for dedup key a. -/
def evResA : InternalEvent :=
  ⟨⟨"em-1", "s", "high", "resolve", "db", "a"⟩, "pk", "db", 0⟩

/-- Fixture: active parent alert-state for dedup key a. -/
def stParentA : AlertState := ⟨"a", "em-1", "parent", "active", "", false⟩

/-- Fixture: resolved parent alert-state for dedup key a. -/
def stParentAResolved : AlertState :=
  ⟨"a", "em-1", "parent", "resolved", "", false⟩

/-- Fixture: durable parent record for dedup key a. -/
def recParentA : Alert :=
  ⟨"id1", "a", "em-1", "s", "high", "db", "parent", "active", "", 1, false,
   0, 0, none⟩

/-- Fixture: durable resolved parent record for dedup key a. -/
def recParentAResolved : Alert :=
  ⟨"id1", "a", "em-1", "s", "high", "db", "parent", "resolved", "", 0, false,
   0, 0, some 0⟩

/-- Fixture: durable active child record for dedup key b under parent a. -/
def recChildB : Alert :=
  ⟨"id2", "b", "em-1", "s", "high", "db", "child", "active", "a", 0, false,
   0, 0, none⟩

/-- Fixture: world with an active alert-state entry for a (and no records). -/
def sysActiveA : Sys :=
  ⟨⟨[], [("a", stParentA)], [], []⟩, ⟨[], [], []⟩, []⟩

/-- Fixture: world with active parent a and one active child b. -/
def sysParentChild : Sys :=
  ⟨⟨[], [("a", stParentA), ("b", ⟨"b", "em-1", "child", "active", "a", false⟩)],
     [("a", ["b"])], []⟩,
   ⟨[("id1", recParentA), ("id2", recChildB)],
    [("a", recParentA), ("b", recChildB)],
    [("a", [("b", recChildB)])]⟩, []⟩

/-- Fixture: world with a resolved parent a (state and record). -/
def sysResolvedA : Sys :=
  ⟨⟨[], [("a", stParentAResolved)], [], []⟩,
   ⟨[("id1", recParentAResolved)], [("a", recParentAResolved)], []⟩, []⟩

/-- Fixture: world with an expired parent-lookup entry for (em-1, class, db)
and nothing else. -/
def sysExpiredParent : Sys :=
  ⟨⟨[(parentKey "em-1" "class" "db", ⟨⟨"p0", 0, 0⟩, 5⟩)], [], [], []⟩,
   ⟨[], [], []⟩, []⟩

/-- Fixture: world with a live parent-lookup entry for (em-1, class, db)
pointing at dedup key a, and no alert states or records. -/
def sysLiveParent : Sys :=
  ⟨⟨[(parentKey "em-1" "class" "db", ⟨⟨"a", 0, 0⟩, 1000⟩)], [], [], []⟩,
   ⟨[], [], []⟩, []⟩

/-! ## Lemmas about the map model -/

theorem mget_mdel_self {α : Type} (m : List (String × α)) (k : String) :
    mget (mdel m k) k = none := by
  induction m with
  | nil => rfl
  | cons p rest ih =>
    obtain ⟨a, v⟩ := p
    by_cases h : a = k
    · simp [mdel, h, ih]
    · simp [mdel, mget, h, ih]

theorem mget_mdel_ne {α : Type} (m : List (String × α)) {k k' : String}
    (h : k ≠ k') : mget (mdel m k) k' = mget m k' := by
  induction m with
  | nil => rfl
  | cons p rest ih =>
    obtain ⟨a, v⟩ := p
    by_cases ha : a = k
    · subst ha
      simp [mdel, mget, h, ih]
    · by_cases ha' : a = k'
      · subst ha'
        simp [mdel, mget, ha, ih, Ne.symm h]
      · simp [mdel, mget, ha, ha', ih]

theorem mget_mset_self {α : Type} (m : List (String × α)) (k : String)
    (v : α) : mget (mset m k v) k = some v := by
  simp [mset, mget]

theorem mget_mset_ne {α : Type} (m : List (String × α)) {k k' : String}
    (v : α) (h : k ≠ k') : mget (mset m k v) k' = mget m k' := by
  simp [mset, mget, h, mget_mdel_ne m h]

theorem mget_mset {α : Type} (m : List (String × α)) (k k' : String)
    (v : α) : mget (mset m k v) k' =
      if k = k' then some v else mget m k' := by
  by_cases h : k = k'
  · subst h
    simp [mget_mset_self]
  · simp [h, mget_mset_ne m v h]

/-! ## Projection lemmas for the processor's primitive steps -/

@[simp] theorem doSetAlert_repo (sys : Sys) (st : AlertState) :
    (sys.doSetAlert st).repo = sys.repo := rfl

@[simp] theorem doSetAlert_alerts (sys : Sys) (st : AlertState) :
    (sys.doSetAlert st).store.alerts =
      mset sys.store.alerts st.dedupKey st := rfl

@[simp] theorem doSetAlert_parents (sys : Sys) (st : AlertState) :
    (sys.doSetAlert st).store.parents = sys.store.parents := rfl

@[simp] theorem doSetAlert_pending (sys : Sys) (st : AlertState) :
    (sys.doSetAlert st).store.pendingResolves =
      sys.store.pendingResolves := rfl

@[simp] theorem doSetAlert_effects (sys : Sys) (st : AlertState) :
    (sys.doSetAlert st).effects = sys.effects ++ [Effect.setAlert st] := rfl

@[simp] theorem doSetParent_repo (sys : Sys) (now : Nat) (em gk gv : String)
    (ps : ParentState) (ttl : Nat) :
    (sys.doSetParent now em gk gv ps ttl).repo = sys.repo := rfl

@[simp] theorem doSetParent_alerts (sys : Sys) (now : Nat) (em gk gv : String)
    (ps : ParentState) (ttl : Nat) :
    (sys.doSetParent now em gk gv ps ttl).store.alerts =
      sys.store.alerts := rfl

@[simp] theorem doSetParent_pending (sys : Sys) (now : Nat) (em gk gv : String)
    (ps : ParentState) (ttl : Nat) :
    (sys.doSetParent now em gk gv ps ttl).store.pendingResolves =
      sys.store.pendingResolves := rfl

@[simp] theorem doSetParent_effects (sys : Sys) (now : Nat) (em gk gv : String)
    (ps : ParentState) (ttl : Nat) :
    (sys.doSetParent now em gk gv ps ttl).effects =
      sys.effects ++ [Effect.setParent em gk gv ps ttl] := rfl

@[simp] theorem doAddChild_repo (sys : Sys) (p c : String) :
    (sys.doAddChild p c).repo = sys.repo := rfl

@[simp] theorem doAddChild_alerts (sys : Sys) (p c : String) :
    (sys.doAddChild p c).store.alerts = sys.store.alerts := rfl

@[simp] theorem doAddChild_parents (sys : Sys) (p c : String) :
    (sys.doAddChild p c).store.parents = sys.store.parents := rfl

@[simp] theorem doAddChild_pending (sys : Sys) (p c : String) :
    (sys.doAddChild p c).store.pendingResolves =
      sys.store.pendingResolves := rfl

@[simp] theorem doAddChild_effects (sys : Sys) (p c : String) :
    (sys.doAddChild p c).effects =
      sys.effects ++ [Effect.addChild p c] := rfl

@[simp] theorem doSetPendingResolve_repo (sys : Sys) (k : String)
    (p : PendingResolve) :
    (sys.doSetPendingResolve k p).repo = sys.repo := rfl

@[simp] theorem doSetPendingResolve_alerts (sys : Sys) (k : String)
    (p : PendingResolve) :
    (sys.doSetPendingResolve k p).store.alerts = sys.store.alerts := rfl

@[simp] theorem doSetPendingResolve_parents (sys : Sys) (k : String)
    (p : PendingResolve) :
    (sys.doSetPendingResolve k p).store.parents = sys.store.parents := rfl

@[simp] theorem doSetPendingResolve_pending (sys : Sys) (k : String)
    (p : PendingResolve) :
    (sys.doSetPendingResolve k p).store.pendingResolves =
      mset sys.store.pendingResolves k p := rfl

@[simp] theorem doSetPendingResolve_effects (sys : Sys) (k : String)
    (p : PendingResolve) :
    (sys.doSetPendingResolve k p).effects =
      sys.effects ++ [Effect.setPendingResolve k p] := rfl

@[simp] theorem doDeletePendingResolve_repo (sys : Sys) (k : String) :
    (sys.doDeletePendingResolve k).repo = sys.repo := rfl

@[simp] theorem doDeletePendingResolve_alerts (sys : Sys) (k : String) :
    (sys.doDeletePendingResolve k).store.alerts = sys.store.alerts := rfl

@[simp] theorem doDeletePendingResolve_parents (sys : Sys) (k : String) :
    (sys.doDeletePendingResolve k).store.parents = sys.store.parents := rfl

@[simp] theorem doDeletePendingResolve_pending (sys : Sys) (k : String) :
    (sys.doDeletePendingResolve k).store.pendingResolves =
      mdel sys.store.pendingResolves k := rfl

@[simp] theorem doDeletePendingResolve_effects (sys : Sys) (k : String) :
    (sys.doDeletePendingResolve k).effects =
      sys.effects ++ [Effect.deletePendingResolve k] := rfl

@[simp] theorem doRepoCreate_store (sys : Sys) (a : Alert) :
    (sys.doRepoCreate a).store = sys.store := rfl

@[simp] theorem doRepoCreate_repo (sys : Sys) (a : Alert) :
    (sys.doRepoCreate a).repo = sys.repo.Create a := rfl

@[simp] theorem doRepoCreate_effects (sys : Sys) (a : Alert) :
    (sys.doRepoCreate a).effects =
      sys.effects ++ [Effect.repoCreate a] := rfl

@[simp] theorem withRepo_store (sys : Sys) (r' : AlertRepository)
    (a : Alert) : (sys.withRepo r' a).store = sys.store := rfl

@[simp] theorem withRepo_repo (sys : Sys) (r' : AlertRepository)
    (a : Alert) : (sys.withRepo r' a).repo = r' := rfl

@[simp] theorem withRepo_effects (sys : Sys) (r' : AlertRepository)
    (a : Alert) : (sys.withRepo r' a).effects =
      sys.effects ++ [Effect.repoUpdate a] := rfl

@[simp] theorem doNotifyNewParent_store (sys : Sys) (a : Alert)
    (em : EventManager) : (sys.doNotifyNewParent a em).store = sys.store := rfl

@[simp] theorem doNotifyNewParent_repo (sys : Sys) (a : Alert)
    (em : EventManager) : (sys.doNotifyNewParent a em).repo = sys.repo := rfl

@[simp] theorem doNotifyNewParent_effects (sys : Sys) (a : Alert)
    (em : EventManager) : (sys.doNotifyNewParent a em).effects =
      sys.effects ++ [Effect.notifyNewParent a em] := rfl

@[simp] theorem doNotifyResolved_store (sys : Sys) (a : Alert)
    (em : EventManager) : (sys.doNotifyResolved a em).store = sys.store := rfl

@[simp] theorem doNotifyResolved_repo (sys : Sys) (a : Alert)
    (em : EventManager) : (sys.doNotifyResolved a em).repo = sys.repo := rfl

@[simp] theorem doNotifyResolved_effects (sys : Sys) (a : Alert)
    (em : EventManager) : (sys.doNotifyResolved a em).effects =
      sys.effects ++ [Effect.notifyResolved a em] := rfl

@[simp] theorem create_alerts (r : AlertRepository) (a : Alert) :
    (r.Create a).alerts = mset r.alerts a.id a := rfl

@[simp] theorem create_byDedupKey (r : AlertRepository) (a : Alert) :
    (r.Create a).byDedupKey = mset r.byDedupKey a.dedupKey a := rfl

theorem update_alerts {r r' : AlertRepository} {a : Alert}
    (h : r.Update a = some r') :
    (r'.alerts = mset r.alerts a.id a ∧
     r'.byDedupKey = mset r.byDedupKey a.dedupKey a) := by
  unfold AlertRepository.Update at h
  cases hg : mget r.alerts a.id with
  | none => rw [hg] at h; exact absurd h (by simp)
  | some existing =>
    rw [hg] at h
    simp only [Option.some.injEq] at h
    subst h
    exact ⟨rfl, rfl⟩

theorem update_none {r : AlertRepository} {a : Alert}
    (h : r.Update a = none) : mget r.alerts a.id = none := by
  unfold AlertRepository.Update at h
  cases hg : mget r.alerts a.id with
  | none => rfl
  | some existing => rw [hg] at h; exact absurd h (by simp)

theorem update_isSome {r : AlertRepository} {a : Alert} {ex : Alert}
    (h : mget r.alerts a.id = some ex) : ∃ r', r.Update a = some r' := by
  unfold AlertRepository.Update
  rw [h]
  exact ⟨_, rfl⟩

/-! ## Lemmas about SHA-256 and hex encoding -/

theorem sha256_length (msg : List Nat) : (sha256 msg).length = 32 := by
  simp [sha256, wordBytes]

theorem wordBytes_lt (x : Nat) : ∀ b ∈ wordBytes x, b < 256 := by
  intro b hb
  simp only [wordBytes, List.mem_cons, List.not_mem_nil, or_false] at hb
  rcases hb with rfl | rfl | rfl | rfl <;> exact Nat.mod_lt _ (by norm_num)

theorem sha256_lt (msg : List Nat) : ∀ b ∈ sha256 msg, b < 256 := by
  intro b hb
  simp only [sha256, List.mem_append] at hb
  rcases hb with ((((((h | h) | h) | h) | h) | h) | h) | h <;>
    exact wordBytes_lt _ b h

theorem flatten_byteHex_length (bs : List Nat) :
    ((bs.map byteHex).flatten).length = 2 * bs.length := by
  induction bs with
  | nil => rfl
  | cons b rest ih =>
    simp only [List.map_cons, List.flatten_cons, List.length_append, ih,
      List.length_cons, byteHex, List.length_nil]
    omega

theorem hexEncode_length (bs : List Nat) :
    (hexEncode bs).length = 2 * bs.length :=
  flatten_byteHex_length bs

theorem hexChar_mem : ∀ n : Nat, n < 16 → hexChar n ∈ hexDigits := by decide

theorem hexEncode_chars (bs : List Nat) (hlt : ∀ b ∈ bs, b < 256) :
    ∀ c ∈ (hexEncode bs).data, c ∈ hexDigits := by
  intro c hc
  simp only [hexEncode, List.mem_flatten, List.mem_map] at hc
  obtain ⟨l, ⟨b, hb, rfl⟩, hcl⟩ := hc
  have hb256 := hlt b hb
  simp only [byteHex, List.mem_cons, List.not_mem_nil, or_false] at hcl
  rcases hcl with rfl | rfl
  · exact hexChar_mem _ (Nat.div_lt_iff_lt_mul (by norm_num) |>.mpr hb256)
  · exact hexChar_mem _ (Nat.mod_lt _ (by norm_num))

/-! ## Invariant preservation for the deduplication-exclusivity claim -/

theorem update_some_mem {r r' : AlertRepository} {a : Alert}
    (h : r.Update a = some r') : (mget r.alerts a.id).isSome = true := by
  unfold AlertRepository.Update at h
  cases hg : mget r.alerts a.id with
  | none => rw [hg] at h; exact absurd h (by simp)
  | some existing => rfl

theorem update_keys {r r' : AlertRepository} {a : Alert}
    (hu : r.Update a = some r') (id : String) :
    (mget r'.alerts id).isSome = true →
    (mget r.alerts id).isSome = true := by
  intro hid
  obtain ⟨hal, -⟩ := update_alerts hu
  rw [hal, mget_mset] at hid
  by_cases h : a.id = id
  · rw [← h]
    exact update_some_mem hu
  · rw [if_neg h] at hid
    exact hid

theorem create_keys {r : AlertRepository} {a : Alert} (id : String) :
    (mget (r.Create a).alerts id).isSome = true →
    (mget r.alerts id).isSome = true ∨ id = a.id := by
  intro hid
  rw [create_alerts, mget_mset] at hid
  by_cases h : a.id = id
  · right
    exact h.symm
  · left
    rw [if_neg h] at hid
    exact hid

theorem inv_storeOnly {sys sys' : Sys} (h : Inv sys) (hr : sys'.repo = sys.repo)
    (hs : ∀ k, (mget sys.store.alerts k).isSome = true →
      (mget sys'.store.alerts k).isSome = true) : Inv sys' := by
  obtain ⟨h1, h2, h3, h4⟩ := h
  have h' : RepoInv sys.repo sys'.store.alerts :=
    ⟨h1, h2, h3, fun id a ha => hs _ (h4 id a ha)⟩
  show RepoInv sys'.repo sys'.store.alerts
  rw [hr]
  exact h'

theorem inv_doSetAlert {sys : Sys} (h : Inv sys) (st : AlertState) :
    Inv (sys.doSetAlert st) := by
  refine inv_storeOnly h rfl ?_
  intro k hk
  rw [doSetAlert_alerts, mget_mset]
  by_cases hkk : st.dedupKey = k
  · simp [hkk]
  · rw [if_neg hkk]
    exact hk

theorem inv_doSetParent {sys : Sys} (h : Inv sys) (now : Nat)
    (em gk gv : String) (ps : ParentState) (ttl : Nat) :
    Inv (sys.doSetParent now em gk gv ps ttl) :=
  inv_storeOnly h rfl (fun _ hk => hk)

theorem inv_doAddChild {sys : Sys} (h : Inv sys) (p c : String) :
    Inv (sys.doAddChild p c) :=
  inv_storeOnly h rfl (fun _ hk => hk)

theorem inv_doSetPendingResolve {sys : Sys} (h : Inv sys) (k : String)
    (p : PendingResolve) : Inv (sys.doSetPendingResolve k p) :=
  inv_storeOnly h rfl (fun _ hk => hk)

theorem inv_doDeletePendingResolve {sys : Sys} (h : Inv sys) (k : String) :
    Inv (sys.doDeletePendingResolve k) :=
  inv_storeOnly h rfl (fun _ hk => hk)

theorem inv_doNotifyNewParent {sys : Sys} (h : Inv sys) (a : Alert)
    (em : EventManager) : Inv (sys.doNotifyNewParent a em) :=
  inv_storeOnly h rfl (fun _ hk => hk)

theorem inv_doNotifyResolved {sys : Sys} (h : Inv sys) (a : Alert)
    (em : EventManager) : Inv (sys.doNotifyResolved a em) :=
  inv_storeOnly h rfl (fun _ hk => hk)

theorem inv_doRepoCreate {sys : Sys} {a : Alert} (h : Inv sys)
    (hfresh : mget sys.repo.alerts a.id = none)
    (hnokey : ∀ id r, mget sys.repo.alerts id = some r →
      r.dedupKey ≠ a.dedupKey)
    (hstate : (mget sys.store.alerts a.dedupKey).isSome = true) :
    Inv (sys.doRepoCreate a) := by
  obtain ⟨h1, h2, h3, h4⟩ := h
  refine ⟨?_, ?_, ?_, ?_⟩
  · intro id b hb
    simp only [doRepoCreate_repo, create_alerts] at hb
    rw [mget_mset] at hb
    by_cases hid : a.id = id
    · rw [if_pos hid] at hb
      injection hb with hb
      subst hb
      exact hid
    · rw [if_neg hid] at hb
      exact h1 id b hb
  · intro k b hb
    simp only [doRepoCreate_repo, create_byDedupKey] at hb
    simp only [doRepoCreate_repo, create_alerts]
    rw [mget_mset] at hb
    by_cases hk : a.dedupKey = k
    · rw [if_pos hk] at hb
      injection hb with hb
      subst hb
      exact ⟨hk, by rw [mget_mset_self]⟩
    · rw [if_neg hk] at hb
      obtain ⟨hb1, hb2⟩ := h2 k b hb
      refine ⟨hb1, ?_⟩
      rw [mget_mset]
      by_cases hid : a.id = b.id
      · exfalso
        rw [← hid, hfresh] at hb2
        exact Option.noConfusion hb2
      · rw [if_neg hid]
        exact hb2
  · intro id b hb
    simp only [doRepoCreate_repo, create_alerts] at hb
    simp only [doRepoCreate_repo, create_byDedupKey]
    rw [mget_mset] at hb
    by_cases hid : a.id = id
    · rw [if_pos hid] at hb
      injection hb with hb
      subst hb
      rw [mget_mset_self]
    · rw [if_neg hid] at hb
      have hbk : b.dedupKey ≠ a.dedupKey := hnokey id b hb
      rw [mget_mset_ne _ _ (fun hh => hbk hh.symm)]
      exact h3 id b hb
  · intro id b hb
    simp only [doRepoCreate_repo, create_alerts] at hb
    simp only [doRepoCreate_store]
    rw [mget_mset] at hb
    by_cases hid : a.id = id
    · rw [if_pos hid] at hb
      injection hb with hb
      subst hb
      exact hstate
    · rw [if_neg hid] at hb
      exact h4 id b hb

theorem inv_withRepoUpdate {sys : Sys} {a r0 : Alert} {k : String}
    {r' : AlertRepository} (h : Inv sys)
    (hbd : mget sys.repo.byDedupKey k = some r0)
    (haid : a.id = r0.id) (hadk : a.dedupKey = k)
    (hu : sys.repo.Update a = some r') :
    Inv (sys.withRepo r' a) := by
  obtain ⟨h1, h2, h3, h4⟩ := h
  obtain ⟨hr0k, hr0a⟩ := h2 k r0 hbd
  obtain ⟨hal, hbdk⟩ := update_alerts hu
  refine ⟨?_, ?_, ?_, ?_⟩
  · intro id b hb
    simp only [withRepo_repo] at hb
    rw [hal, mget_mset] at hb
    by_cases hid : a.id = id
    · rw [if_pos hid] at hb
      injection hb with hb
      subst hb
      exact hid
    · rw [if_neg hid] at hb
      exact h1 id b hb
  · intro k' b hb
    simp only [withRepo_repo] at hb ⊢
    rw [hbdk, mget_mset] at hb
    rw [hal]
    by_cases hk : a.dedupKey = k'
    · rw [if_pos hk] at hb
      injection hb with hb
      subst hb
      exact ⟨hk, by rw [mget_mset_self]⟩
    · rw [if_neg hk] at hb
      obtain ⟨hb1, hb2⟩ := h2 k' b hb
      refine ⟨hb1, ?_⟩
      rw [mget_mset]
      by_cases hid : a.id = b.id
      · exfalso
        rw [haid] at hid
        rw [← hid, hr0a] at hb2
        injection hb2 with hb2
        apply hk
        rw [hadk, ← hr0k, hb2]
        exact hb1
      · rw [if_neg hid]
        exact hb2
  · intro id b hb
    simp only [withRepo_repo] at hb ⊢
    rw [hal, mget_mset] at hb
    rw [hbdk]
    by_cases hid : a.id = id
    · rw [if_pos hid] at hb
      injection hb with hb
      subst hb
      rw [mget_mset_self]
    · rw [if_neg hid] at hb
      by_cases hk : b.dedupKey = a.dedupKey
      · exfalso
        have hb3 := h3 id b hb
        rw [hk, hadk, hbd] at hb3
        injection hb3 with hb3
        apply hid
        rw [haid, hb3]
        exact h1 id b hb
      · rw [mget_mset_ne _ _ (fun hh => hk hh.symm)]
        exact h3 id b hb
  · intro id b hb
    simp only [withRepo_repo] at hb
    simp only [withRepo_store]
    rw [hal, mget_mset] at hb
    by_cases hid : a.id = id
    · rw [if_pos hid] at hb
      injection hb with hb
      subst hb
      have hst := h4 r0.id r0 hr0a
      rw [hr0k] at hst
      rw [hadk]
      exact hst
    · rw [if_neg hid] at hb
      exact h4 id b hb

theorem inv_completeParentResolution {env : Env} {now : Nat} {k : String}
    {st : AlertState} {sys : Sys} (h : Inv sys) :
    Inv (completeParentResolution env now k st sys).1 := by
  unfold completeParentResolution
  dsimp only
  have h2 : Inv ((sys.doSetAlert { st with
      status := AlertStatusResolved,
      resolveRequested := false }).doDeletePendingResolve k) :=
    inv_doDeletePendingResolve (inv_doSetAlert h _) k
  split
  · exact h2
  · rename_i alert hga
    split
    · exact h2
    · rename_i r' hu
      have h2c := h2
      obtain ⟨-, hb2, -, -⟩ := h2c
      have h3 := inv_withRepoUpdate h2 hga
        (show (alert.Resolve now).id = alert.id from rfl)
        (show (alert.Resolve now).dedupKey = k from (hb2 k alert hga).1) hu
      split
      · exact h3
      · exact inv_doNotifyResolved h3 _ _

theorem inv_checkParentResolution {env : Env} {now : Nat} {pk : String}
    {sys : Sys} (h : Inv sys) :
    Inv (checkParentResolution env now pk sys).1 := by
  unfold checkParentResolution
  dsimp only
  split
  · exact h
  · rename_i p hp
    split
    · exact inv_doSetPendingResolve h _ _
    · split
      · exact h
      · exact inv_completeParentResolution h

theorem inv_resolveChildAlert {env : Env} {now : Nat} {ev : InternalEvent}
    {st : AlertState} {sys : Sys} (h : Inv sys) :
    Inv (resolveChildAlert env now ev st sys).1 := by
  unfold resolveChildAlert
  dsimp only
  have h1 : Inv (sys.doSetAlert { st with status := AlertStatusResolved }) :=
    inv_doSetAlert h _
  split
  · exact h1
  · rename_i alert hga
    split
    · exact h1
    · rename_i r' hu
      have h1c := h1
      obtain ⟨-, hb2, -, -⟩ := h1c
      have h2 := inv_withRepoUpdate h1 hga
        (show (alert.Resolve now).id = alert.id from rfl)
        (show (alert.Resolve now).dedupKey = ev.event.dedupKey from
          (hb2 _ alert hga).1) hu
      split
      · exact inv_checkParentResolution h2
      · exact h2

theorem inv_resolveParentAlert {env : Env} {now : Nat} {ev : InternalEvent}
    {st : AlertState} {sys : Sys} (h : Inv sys) :
    Inv (resolveParentAlert env now ev st sys).1 := by
  unfold resolveParentAlert
  dsimp only
  split
  · have h2 : Inv ((sys.doSetAlert { st with resolveRequested := true
        }).doSetPendingResolve ev.event.dedupKey
        ⟨now, sys.repo.CountActiveChildren ev.event.dedupKey⟩) :=
      inv_doSetPendingResolve (inv_doSetAlert h _) _ _
    split
    · exact h2
    · rename_i alert hga
      split
      · exact h2
      · rename_i r' hu
        have h2c := h2
        obtain ⟨-, hb2, -, -⟩ := h2c
        exact inv_withRepoUpdate h2 hga
          (show (alert.MarkResolveRequested now).id = alert.id from rfl)
          (show (alert.MarkResolveRequested now).dedupKey =
            ev.event.dedupKey from (hb2 _ alert hga).1) hu
  · exact inv_completeParentResolution h

theorem inv_handleResolve {env : Env} {now : Nat} {ev : InternalEvent}
    {sys : Sys} (h : Inv sys) :
    Inv (handleResolve env now ev sys).1 := by
  unfold handleResolve
  split
  · exact h
  · split
    · exact h
    · split
      · exact inv_resolveChildAlert h
      · exact inv_resolveParentAlert h

theorem inv_reactivateAlert {now : Nat} {ev : InternalEvent}
    {st : AlertState} {sys : Sys} (h : Inv sys) :
    Inv (reactivateAlert now ev st sys).1 := by
  unfold reactivateAlert
  dsimp only
  have h1 : Inv (sys.doSetAlert { st with
      status := AlertStatusActive,
      resolveRequested := false }) := inv_doSetAlert h _
  split
  · exact h1
  · rename_i alert hga
    split
    · exact h1
    · rename_i r' hu
      have h1c := h1
      obtain ⟨-, hb2, -, -⟩ := h1c
      exact inv_withRepoUpdate h1 hga rfl
        (show ({ alert with
                 status := AlertStatusActive,
                 resolveRequested := false,
                 resolvedAt := none,
                 updatedAt := now } : Alert).dedupKey = ev.event.dedupKey
          from (hb2 _ alert hga).1) hu

theorem inv_createParentAlert {now : Nat} {newID : String}
    {ev : InternalEvent} {rule : GroupingRule} {em : EventManager}
    {sys : Sys} (h : Inv sys)
    (hfresh : mget sys.repo.alerts newID = none)
    (hnokey : ∀ id r, mget sys.repo.alerts id = some r →
      r.dedupKey ≠ ev.event.dedupKey) :
    Inv (createParentAlert now newID ev rule em sys).1 := by
  unfold createParentAlert
  dsimp only [NewParentAlert]
  apply inv_doNotifyNewParent
  apply inv_doRepoCreate
    (inv_doSetParent (inv_doSetAlert h _) _ _ _ _ _ _)
  · exact hfresh
  · exact hnokey
  · rw [doSetParent_alerts, doSetAlert_alerts]
    dsimp only
    rw [mget_mset_self]
    rfl

theorem inv_createChildAlert {now : Nat} {newID : String}
    {ev : InternalEvent} {ps : ParentState} {rule : GroupingRule}
    {sys : Sys} (h : Inv sys)
    (hfresh : mget sys.repo.alerts newID = none)
    (hnokey : ∀ id r, mget sys.repo.alerts id = some r →
      r.dedupKey ≠ ev.event.dedupKey) :
    Inv (createChildAlert now newID ev ps rule sys).1 := by
  unfold createChildAlert
  dsimp only [NewChildAlert]
  have h3 : Inv (((sys.doSetAlert ⟨ev.event.dedupKey,
      ev.event.eventManagerID, AlertTypeChild, AlertStatusActive,
      ps.dedupKey, false⟩).doAddChild ps.dedupKey
      ev.event.dedupKey).doRepoCreate
        ⟨newID, ev.event.dedupKey, ev.event.eventManagerID,
         ev.event.summary, ev.event.severity, ev.event.cls, AlertTypeChild,
         AlertStatusActive, ps.dedupKey, 0, false, now, now, none⟩) := by
    apply inv_doRepoCreate (inv_doAddChild (inv_doSetAlert h _) _ _)
    · exact hfresh
    · exact hnokey
    · rw [doAddChild_alerts, doSetAlert_alerts]
      dsimp only
      rw [mget_mset_self]
      rfl
  split
  · exact h3
  · rename_i pa hpa
    split
    · exact h3
    · rename_i r' hu
      have h3c := h3
      obtain ⟨-, hb2, -, -⟩ := h3c
      exact inv_withRepoUpdate h3 hpa
        (show (pa.IncrementChildCount now).id = pa.id from rfl)
        (show (pa.IncrementChildCount now).dedupKey = ps.dedupKey from
          (hb2 _ pa hpa).1) hu

theorem inv_handleTrigger {env : Env} {now : Nat} {newID : String}
    {ev : InternalEvent} {sys : Sys} (h : Inv sys)
    (hfresh : mget sys.repo.alerts newID = none) :
    Inv (handleTrigger env now newID ev sys).1 := by
  unfold handleTrigger
  split
  · split
    · exact inv_reactivateAlert h
    · exact h
  · rename_i hga
    have hnokey : ∀ id r, mget sys.repo.alerts id = some r →
        r.dedupKey ≠ ev.event.dedupKey := by
      intro id r hr hdk
      obtain ⟨-, -, -, h4⟩ := h
      have hst := h4 id r hr
      rw [hdk] at hst
      rw [show mget sys.store.alerts ev.event.dedupKey = none from hga]
        at hst
      exact Bool.noConfusion hst
    split
    · exact h
    · split
      · exact h
      · split
        · exact inv_createChildAlert h hfresh hnokey
        · exact inv_createParentAlert h hfresh hnokey

theorem inv_processEvent {env : Env} {now : Nat} {newID : String}
    {ev : InternalEvent} {sys : Sys} (h : Inv sys)
    (hfresh : mget sys.repo.alerts newID = none) :
    Inv (processEvent env now newID ev sys).1 := by
  unfold processEvent
  split
  · exact inv_handleTrigger h hfresh
  · split
    · exact inv_handleResolve h
    · exact h

/-! ## Key-set bounds: processing one event only ever adds the minted ID -/

theorem keys_completeParentResolution (env : Env) (now : Nat) (k : String)
    (st : AlertState) (sys : Sys) (id : String) :
    (mget (completeParentResolution env now k st
      sys).1.repo.alerts id).isSome = true →
    (mget sys.repo.alerts id).isSome = true := by
  unfold completeParentResolution
  dsimp only
  split
  · exact fun hx => hx
  · rename_i alert hga
    split
    · exact fun hx => hx
    · rename_i r' hu
      split
      · exact fun hx => update_keys hu id hx
      · exact fun hx => update_keys hu id hx

theorem keys_checkParentResolution (env : Env) (now : Nat) (pk : String)
    (sys : Sys) (id : String) :
    (mget (checkParentResolution env now pk sys).1.repo.alerts id).isSome =
      true →
    (mget sys.repo.alerts id).isSome = true := by
  unfold checkParentResolution
  dsimp only
  split
  · exact fun hx => hx
  · rename_i p hp
    split
    · exact fun hx => hx
    · split
      · exact fun hx => hx
      · exact fun hx => keys_completeParentResolution env now pk _ sys id hx

theorem keys_resolveChildAlert (env : Env) (now : Nat) (ev : InternalEvent)
    (st : AlertState) (sys : Sys) (id : String) :
    (mget (resolveChildAlert env now ev st sys).1.repo.alerts id).isSome =
      true →
    (mget sys.repo.alerts id).isSome = true := by
  unfold resolveChildAlert
  dsimp only
  split
  · exact fun hx => hx
  · rename_i alert hga
    split
    · exact fun hx => hx
    · rename_i r' hu
      split
      · intro hx
        exact update_keys hu id
          (keys_checkParentResolution env now _ _ id hx)
      · exact fun hx => update_keys hu id hx

theorem keys_resolveParentAlert (env : Env) (now : Nat) (ev : InternalEvent)
    (st : AlertState) (sys : Sys) (id : String) :
    (mget (resolveParentAlert env now ev st sys).1.repo.alerts id).isSome =
      true →
    (mget sys.repo.alerts id).isSome = true := by
  unfold resolveParentAlert
  dsimp only
  split
  · split
    · exact fun hx => hx
    · rename_i alert hga
      split
      · exact fun hx => hx
      · rename_i r' hu
        exact fun hx => update_keys hu id hx
  · exact fun hx => keys_completeParentResolution env now _ _ sys id hx

theorem keys_handleResolve (env : Env) (now : Nat) (ev : InternalEvent)
    (sys : Sys) (id : String) :
    (mget (handleResolve env now ev sys).1.repo.alerts id).isSome = true →
    (mget sys.repo.alerts id).isSome = true := by
  unfold handleResolve
  split
  · exact fun hx => hx
  · split
    · exact fun hx => hx
    · split
      · exact fun hx => keys_resolveChildAlert env now ev _ sys id hx
      · exact fun hx => keys_resolveParentAlert env now ev _ sys id hx

theorem keys_reactivateAlert (now : Nat) (ev : InternalEvent)
    (st : AlertState) (sys : Sys) (id : String) :
    (mget (reactivateAlert now ev st sys).1.repo.alerts id).isSome = true →
    (mget sys.repo.alerts id).isSome = true := by
  unfold reactivateAlert
  dsimp only
  split
  · exact fun hx => hx
  · rename_i alert hga
    split
    · exact fun hx => hx
    · rename_i r' hu
      exact fun hx => update_keys hu id hx

theorem keys_createParentAlert (now : Nat) (newID : String)
    (ev : InternalEvent) (rule : GroupingRule) (em : EventManager)
    (sys : Sys) (id : String) :
    (mget (createParentAlert now newID ev rule em
      sys).1.repo.alerts id).isSome = true →
    (mget sys.repo.alerts id).isSome = true ∨ id = newID := by
  unfold createParentAlert
  dsimp only [NewParentAlert]
  exact fun hx => create_keys id hx

theorem keys_createChildAlert (now : Nat) (newID : String)
    (ev : InternalEvent) (ps : ParentState) (rule : GroupingRule)
    (sys : Sys) (id : String) :
    (mget (createChildAlert now newID ev ps rule
      sys).1.repo.alerts id).isSome = true →
    (mget sys.repo.alerts id).isSome = true ∨ id = newID := by
  unfold createChildAlert
  dsimp only [NewChildAlert]
  split
  · exact fun hx => create_keys id hx
  · rename_i pa hpa
    split
    · exact fun hx => create_keys id hx
    · rename_i r' hu
      exact fun hx => create_keys id (update_keys hu id hx)

theorem keys_handleTrigger (env : Env) (now : Nat) (newID : String)
    (ev : InternalEvent) (sys : Sys) (id : String) :
    (mget (handleTrigger env now newID ev sys).1.repo.alerts id).isSome =
      true →
    (mget sys.repo.alerts id).isSome = true ∨ id = newID := by
  unfold handleTrigger
  split
  · split
    · exact fun hx => Or.inl (keys_reactivateAlert now ev _ sys id hx)
    · exact fun hx => Or.inl hx
  · split
    · exact fun hx => Or.inl hx
    · split
      · exact fun hx => Or.inl hx
      · split
        · exact fun hx => keys_createChildAlert now newID ev _ _ sys id hx
        · exact fun hx => keys_createParentAlert now newID ev _ _ sys id hx

theorem keys_processEvent (env : Env) (now : Nat) (newID : String)
    (ev : InternalEvent) (sys : Sys) (id : String) :
    (mget (processEvent env now newID ev sys).1.repo.alerts id).isSome =
      true →
    (mget sys.repo.alerts id).isSome = true ∨ id = newID := by
  unfold processEvent
  split
  · exact fun hx => keys_handleTrigger env now newID ev sys id hx
  · split
    · exact fun hx => Or.inl (keys_handleResolve env now ev sys id hx)
    · exact fun hx => Or.inl hx

/-! ## The trace induction -/

theorem run_preserve (env : Env) : ∀ (steps : List TraceStep) (sys : Sys),
    Inv sys →
    (∀ s ∈ steps, mget sys.repo.alerts s.newID = none) →
    List.Pairwise (fun a b => a.newID ≠ b.newID) steps →
    Inv (steps.foldl
      (fun sys s => (processEvent env s.now s.newID s.event sys).1) sys) := by
  intro steps
  induction steps with
  | nil => exact fun sys h _ _ => h
  | cons s rest ih =>
    intro sys h hf hp
    simp only [List.foldl_cons]
    obtain ⟨hp1, hp2⟩ := List.pairwise_cons.mp hp
    apply ih
    · exact inv_processEvent h (hf s (List.mem_cons_self s rest))
    · intro t ht
      by_contra hcon
      have hsome : (mget (processEvent env s.now s.newID s.event
          sys).1.repo.alerts t.newID).isSome = true := by
        rw [← Option.ne_none_iff_isSome]
        exact hcon
      rcases keys_processEvent env s.now s.newID s.event sys t.newID hsome
        with hold | heq
      · rw [hf t (List.mem_cons_of_mem _ ht)] at hold
        exact Bool.noConfusion hold
      · exact hp1 t ht heq.symm
    · exact hp2

/-! ## Claim theorems -/

/-- Claim C3: over any sequence of trigger and resolve events processed
sequentially from the empty world (with pairwise-distinct minted record
IDs), the durable repository never holds two records under different IDs
with the same dedup key and status active: the processor's get-alert guard
supplies the exclusivity that the in-memory Create does not enforce. -/
theorem dedup_exclusivity (env : Env) (steps : List TraceStep)
    (hids : List.Pairwise (fun a b => a.newID ≠ b.newID) steps) :
    ∀ id₁ id₂ a₁ a₂,
      mget (runTrace env steps).repo.alerts id₁ = some a₁ →
      mget (runTrace env steps).repo.alerts id₂ = some a₂ →
      a₁.dedupKey = a₂.dedupKey →
      a₁.status = AlertStatusActive → a₂.status = AlertStatusActive →
      id₁ = id₂ := by
  have hInv : Inv (runTrace env steps) := by
    apply run_preserve env steps initSys
    · exact ⟨fun id a h => Option.noConfusion h,
             fun k a h => Option.noConfusion h,
             fun id a h => Option.noConfusion h,
             fun id a h => Option.noConfusion h⟩
    · exact fun s _ => rfl
    · exact hids
  intro id₁ id₂ a₁ a₂ h1 h2 hdk _ _
  obtain ⟨hi, hb, hir, hst⟩ := hInv
  have e1 := hir id₁ a₁ h1
  have e2 := hir id₂ a₂ h2
  rw [hdk, e2] at e1
  injection e1 with e1
  have hid1 := hi id₁ a₁ h1
  have hid2 := hi id₂ a₂ h2
  rw [← hid1, ← hid2, e1]

/-- Claim C3 witness: a one-step trace creating parent a; the durable record
under id1 is the only active record for dedup key a. -/
theorem dedup_exclusivity_witness : ("id1" : String) = "id1" :=
  dedup_exclusivity envW [⟨0, "id1", evTrigA⟩] (by simp) "id1" "id1"
    { NewParentAlert evTrigA.event 0 with id := "id1" }
    { NewParentAlert evTrigA.event 0 with id := "id1" }
    (by rfl) (by rfl) rfl rfl rfl

/-- Claim C4: for every pair (tenant id, grouping value), the partition key
equals the hex encoding of the first 8 bytes of the SHA-256 of
tenant_id ++ colon ++ grouping_value, is exactly 16 lowercase hex
characters, and is a deterministic function of its two inputs. -/
theorem partition_key_spec (tenantID groupingValue : String) :
    computePartitionKey tenantID groupingValue =
      specPartitionKey tenantID groupingValue ∧
    (computePartitionKey tenantID groupingValue).length = 16 ∧
    (∀ c ∈ (computePartitionKey tenantID groupingValue).data,
      c ∈ hexDigits) ∧
    (∀ t g, tenantID = t → groupingValue = g →
      computePartitionKey tenantID groupingValue =
        computePartitionKey t g) := by
  refine ⟨rfl, ?_, ?_, ?_⟩
  · have h32 := sha256_length (strBytes (tenantID ++ ":" ++ groupingValue))
    simp [computePartitionKey, hexEncode_length, h32]
  · intro c hc
    refine hexEncode_chars _ ?_ c hc
    intro b hb
    exact sha256_lt _ b (List.take_subset _ _ hb)
  · intro t g ht hg
    subst ht
    subst hg
    rfl

/-- Claim C4 witness: the theorem applied at a concrete tenant and grouping
value, its equality hypotheses discharged by rfl. -/
theorem partition_key_spec_witness :
    computePartitionKey "em-1" "db" = computePartitionKey "em-1" "db" :=
  (partition_key_spec "em-1" "db").2.2.2 "em-1" "db" rfl rfl

/-- Claim C5 counterexample: the validator rejects a resolve event with an
empty summary (the claim says resolve permits it) and accepts a trigger
event with an empty class (the claim says trigger rejects it). -/
theorem event_validate_claim_false :
    Event.Validate ⟨"em-1", "", "high", "resolve", "db", "k1"⟩ =
      some "summary is required" ∧
    Event.Validate ⟨"em-1", "s", "high", "trigger", "", "k1"⟩ = none := by
  constructor <;> rfl

/-- Claim C5 (amended): validation requires event_manager_id, summary, a
valid severity, a valid action and dedup key for every event regardless of
action, and never examines the class field. -/
theorem event_validate_amended (e : Event) :
    (Event.Validate e = none ↔
      (e.eventManagerID ≠ "" ∧ e.summary ≠ "" ∧
       severityIsValid e.severity = true ∧ actionIsValid e.action = true ∧
       e.dedupKey ≠ "")) ∧
    (∀ c, Event.Validate { e with cls := c } = Event.Validate e) := by
  constructor
  · unfold Event.Validate
    split_ifs with h1 h2 h3 h4 h5 <;> simp_all
  · intro c
    rfl

/-- Claim C5 witness: the amended validation rule applied at a concrete
trigger event with an empty class, each requirement discharged by decide. -/
theorem event_validate_amended_witness :
    Event.Validate ⟨"em-1", "s", "high", "trigger", "", "k1"⟩ = none :=
  (event_validate_amended ⟨"em-1", "s", "high", "trigger", "", "k1"⟩).1.mpr
    ⟨by decide, by decide, by decide, by decide, by decide⟩

/-- Claim C2: a trigger event whose dedup key already has an active alert
state mutates nothing at all — handleTrigger returns the world unchanged
(so no state write, no repository write, no new record, and the stored
created_at is untouched) and acknowledges with no error. -/
theorem trigger_dedup_noop (env : Env) (now : Nat) (newID : String)
    (ev : InternalEvent) (sys : Sys) (st : AlertState)
    (hget : sys.store.GetAlert ev.event.dedupKey = some st)
    (hactive : st.status = AlertStatusActive) :
    handleTrigger env now newID ev sys = (sys, none) := by
  unfold handleTrigger
  rw [hget]
  simp [hactive, AlertStatusActive, AlertStatusResolved]

/-- Claim C2 witness: a duplicate trigger for the active alert a leaves the
concrete world untouched. -/
theorem trigger_dedup_noop_witness :
    handleTrigger envW 0 "id9" evTrigA sysActiveA = (sysActiveA, none) :=
  trigger_dedup_noop envW 0 "id9" evTrigA sysActiveA stParentA (by rfl) rfl

/-- completeParentResolution always rewrites the alert-state entry at the
passed state's dedup key to resolved, whatever the repository holds. -/
theorem complete_alerts (env : Env) (now : Nat) (k : String)
    (st : AlertState) (sys : Sys) :
    (completeParentResolution env now k st sys).1.store.alerts =
      mset sys.store.alerts st.dedupKey
        { st with status := AlertStatusResolved
                  resolveRequested := false } := by
  unfold completeParentResolution
  dsimp only
  repeat' split
  all_goals simp

/-- completeParentResolution never touches the parent-lookup map. -/
theorem complete_parents (env : Env) (now : Nat) (k : String)
    (st : AlertState) (sys : Sys) :
    (completeParentResolution env now k st sys).1.store.parents =
      sys.store.parents := by
  unfold completeParentResolution
  dsimp only
  repeat' split
  all_goals simp

/-- createChildAlert never touches the parent-lookup map (so it cannot
refresh the parent's TTL). -/
theorem createChild_parents (now : Nat) (newID : String) (ev : InternalEvent)
    (ps : ParentState) (rule : GroupingRule) (sys : Sys) :
    (createChildAlert now newID ev ps rule sys).1.store.parents =
      sys.store.parents := by
  unfold createChildAlert
  dsimp only
  repeat' split
  all_goals simp

/-- Claim C1: a parent's status transitions to resolved exactly under the
quorum condition.  On the direct path, resolveParentAlert leaves the
alert-state entry resolved iff the repository counted zero active children
at its probe; on the deferred path, checkParentResolution resolves the
parent iff a pending-resolve entry exists and its recount is zero. -/
theorem parent_resolution_quorum (env : Env) (now : Nat) (sys : Sys) :
    (∀ ev st, st.dedupKey = ev.event.dedupKey →
      st.status = AlertStatusActive →
      (Option.map AlertState.status
          (mget (resolveParentAlert env now ev st sys).1.store.alerts
            ev.event.dedupKey) = some AlertStatusResolved ↔
        sys.repo.CountActiveChildren ev.event.dedupKey = 0)) ∧
    (∀ pk ps, mget sys.store.alerts pk = some ps →
      ps.dedupKey = pk → ps.status ≠ AlertStatusResolved →
      (Option.map AlertState.status
          (mget (checkParentResolution env now pk sys).1.store.alerts pk) =
            some AlertStatusResolved ↔
        ((sys.store.GetPendingResolve pk).isSome = true ∧
          sys.repo.CountActiveChildren pk = 0))) := by
  constructor
  · intro ev st hkey hactive
    by_cases hc : sys.repo.CountActiveChildren ev.event.dedupKey = 0
    · unfold resolveParentAlert
      simp only [hc, Nat.lt_irrefl, if_false, gt_iff_lt]
      rw [complete_alerts, hkey]
      simp [mget_mset_self, hc]
    · have hc' : 0 < sys.repo.CountActiveChildren ev.event.dedupKey :=
        Nat.pos_of_ne_zero hc
      unfold resolveParentAlert
      simp only [gt_iff_lt, hc', if_true]
      have hne : AlertStatusActive ≠ AlertStatusResolved := by decide
      split
      · simp [hkey, mget_mset_self, hactive, hc, hne]
      · split <;> simp [hkey, mget_mset_self, hactive, hc, hne]
  · intro pk ps hps hpk hstat
    unfold checkParentResolution
    split
    · rename_i hp
      simp only [StateStore.GetPendingResolve] at hp
      simp [hps, hp, hstat, StateStore.GetPendingResolve]
    · rename_i p hp
      simp only [StateStore.GetPendingResolve] at hp
      by_cases hc : sys.repo.CountActiveChildren pk = 0
      · simp only [hc, Nat.lt_irrefl, if_false, gt_iff_lt]
        split
        · rename_i hg
          simp only [StateStore.GetAlert] at hg
          rw [hps] at hg
          exact absurd hg (by simp)
        · rename_i ps2 hg
          simp only [StateStore.GetAlert] at hg
          rw [hps] at hg
          injection hg with hg
          subst hg
          rw [complete_alerts, hpk]
          simp [mget_mset_self, hp, hc, StateStore.GetPendingResolve]
      · have hc' : 0 < sys.repo.CountActiveChildren pk :=
          Nat.pos_of_ne_zero hc
        simp only [gt_iff_lt, hc', if_true]
        simp [hps, hstat, hc]

/-- Claim C1 witness: applied to the concrete world holding active parent a
with one active child; the direct-resolve branch reports not-resolved since
the count is 1, and the probe branch reports not-resolved since no
pending-resolve entry exists. -/
theorem parent_resolution_quorum_witness :
    (Option.map AlertState.status
        (mget (resolveParentAlert envW 7 evResA stParentA
          sysParentChild).1.store.alerts "a") = some AlertStatusResolved ↔
      sysParentChild.repo.CountActiveChildren "a" = 0) ∧
    (Option.map AlertState.status
        (mget (checkParentResolution envW 7 "a"
          sysParentChild).1.store.alerts "a") = some AlertStatusResolved ↔
      ((sysParentChild.store.GetPendingResolve "a").isSome = true ∧
        sysParentChild.repo.CountActiveChildren "a" = 0)) :=
  ⟨(parent_resolution_quorum envW 7 sysParentChild).1 evResA stParentA rfl rfl,
   (parent_resolution_quorum envW 7 sysParentChild).2 "a" stParentA
     (by rfl) rfl (by decide)⟩

/-- Claim C6: a resolve for an active parent with at least one active child
defers: the alert-state entry and the durable record keep status active and
gain resolve_requested=true, a pending-resolve entry is written whose
remaining_children equals the counted active children, and the effect trace
shows exactly the two state writes and the record update — no
notify_resolved. -/
theorem deferred_parent_resolve (env : Env) (now : Nat) (ev : InternalEvent)
    (sys : Sys) (st : AlertState) (rec : Alert)
    (hget : sys.store.GetAlert ev.event.dedupKey = some st)
    (hkey : st.dedupKey = ev.event.dedupKey)
    (hactive : st.status = AlertStatusActive)
    (htype : st.type = AlertTypeParent)
    (hcount : 0 < sys.repo.CountActiveChildren ev.event.dedupKey)
    (hrec : sys.repo.GetByDedupKey ev.event.dedupKey = some rec)
    (hrdk : rec.dedupKey = ev.event.dedupKey)
    (hrecid : mget sys.repo.alerts rec.id = some rec)
    (hrecactive : rec.status = AlertStatusActive) :
    mget (handleResolve env now ev sys).1.store.alerts ev.event.dedupKey =
      some { st with resolveRequested := true } ∧
    ({ st with resolveRequested := true } : AlertState).status =
      AlertStatusActive ∧
    mget (handleResolve env now ev sys).1.store.pendingResolves
        ev.event.dedupKey =
      some ⟨now, sys.repo.CountActiveChildren ev.event.dedupKey⟩ ∧
    (handleResolve env now ev sys).1.repo.GetByDedupKey ev.event.dedupKey =
      some { rec with resolveRequested := true, updatedAt := now } ∧
    ({ rec with resolveRequested := true, updatedAt := now } : Alert).status =
      AlertStatusActive ∧
    (handleResolve env now ev sys).1.effects =
      sys.effects ++
        [Effect.setAlert { st with resolveRequested := true },
         Effect.setPendingResolve ev.event.dedupKey
           ⟨now, sys.repo.CountActiveChildren ev.event.dedupKey⟩,
         Effect.repoUpdate { rec with resolveRequested := true,
                                      updatedAt := now }] := by
  have hhr : handleResolve env now ev sys =
      resolveParentAlert env now ev st sys := by
    unfold handleResolve
    rw [hget]
    simp [hactive, htype, AlertStatusActive, AlertStatusResolved,
      AlertTypeChild, AlertTypeParent]
  have hup : sys.repo.Update (rec.MarkResolveRequested now) =
      some ⟨mset sys.repo.alerts (rec.MarkResolveRequested now).id
              (rec.MarkResolveRequested now),
            mset sys.repo.byDedupKey (rec.MarkResolveRequested now).dedupKey
              (rec.MarkResolveRequested now),
            updateByParent sys.repo.byParent rec
              (rec.MarkResolveRequested now)⟩ := by
    unfold AlertRepository.Update
    rw [show mget sys.repo.alerts (rec.MarkResolveRequested now).id =
          some rec from hrecid]
  rw [hhr]
  unfold resolveParentAlert
  dsimp only
  simp only [hcount, gt_iff_lt, if_true, doSetAlert_repo,
    doSetPendingResolve_repo, hrec, hup]
  refine ⟨?_, by rw [hactive], ?_, ?_, by rw [hrecactive], ?_⟩
  · simp [hkey, mget_mset_self]
  · simp [mget_mset_self]
  · simp only [AlertRepository.GetByDedupKey, withRepo_repo,
      Alert.MarkResolveRequested]
    rw [show ({ rec with resolveRequested := true,
                         updatedAt := now } : Alert).dedupKey =
          ev.event.dedupKey from hrdk]
    rw [mget_mset_self]
  · simp [Alert.MarkResolveRequested]

/-- Claim C6 witness: a resolve for the concrete parent a with one active
child b defers with remaining_children = 1 and no notification. -/
theorem deferred_parent_resolve_witness :
    mget (handleResolve envW 7 evResA sysParentChild).1.store.alerts "a" =
      some { stParentA with resolveRequested := true } ∧
    ({ stParentA with resolveRequested := true } : AlertState).status =
      AlertStatusActive ∧
    mget (handleResolve envW 7 evResA sysParentChild).1.store.pendingResolves
        "a" =
      some ⟨7, sysParentChild.repo.CountActiveChildren "a"⟩ ∧
    (handleResolve envW 7 evResA sysParentChild).1.repo.GetByDedupKey "a" =
      some { recParentA with resolveRequested := true, updatedAt := 7 } ∧
    ({ recParentA with resolveRequested := true, updatedAt := 7 } :
      Alert).status = AlertStatusActive ∧
    (handleResolve envW 7 evResA sysParentChild).1.effects =
      sysParentChild.effects ++
        [Effect.setAlert { stParentA with resolveRequested := true },
         Effect.setPendingResolve "a"
           ⟨7, sysParentChild.repo.CountActiveChildren "a"⟩,
         Effect.repoUpdate { recParentA with resolveRequested := true,
                                             updatedAt := 7 }] :=
  deferred_parent_resolve envW 7 evResA sysParentChild stParentA recParentA
    (by rfl) rfl rfl rfl (by decide) (by rfl) rfl (by rfl) rfl

/-- Claim C7: a trigger for a dedup key whose alert state is resolved
reactivates in place — the state entry becomes active with
resolve_requested=false, the durable record becomes active with resolved_at
cleared, resolve_requested cleared and updated_at set to now, the
repository's ID key set is unchanged (no new record), and the handler
acknowledges. -/
theorem reactivation_in_place (env : Env) (now : Nat) (newID : String)
    (ev : InternalEvent) (sys : Sys) (st : AlertState) (rec : Alert)
    (hget : sys.store.GetAlert ev.event.dedupKey = some st)
    (hres : st.status = AlertStatusResolved)
    (hkey : st.dedupKey = ev.event.dedupKey)
    (hrec : sys.repo.GetByDedupKey ev.event.dedupKey = some rec)
    (hrdk : rec.dedupKey = ev.event.dedupKey)
    (hrecid : mget sys.repo.alerts rec.id = some rec) :
    mget (handleTrigger env now newID ev sys).1.store.alerts
        ev.event.dedupKey =
      some { st with status := AlertStatusActive
                     resolveRequested := false } ∧
    (handleTrigger env now newID ev sys).1.repo.GetByDedupKey
        ev.event.dedupKey =
      some { rec with status := AlertStatusActive
                      resolveRequested := false
                      resolvedAt := none
                      updatedAt := now } ∧
    (∀ id, (mget (handleTrigger env now newID ev sys).1.repo.alerts
        id).isSome = (mget sys.repo.alerts id).isSome) ∧
    (handleTrigger env now newID ev sys).2 = none := by
  have hht : handleTrigger env now newID ev sys =
      reactivateAlert now ev st sys := by
    unfold handleTrigger
    rw [hget]
    simp [hres]
  have hup : sys.repo.Update
      ({ rec with status := AlertStatusActive
                  resolveRequested := false
                  resolvedAt := none
                  updatedAt := now }) =
      some ⟨mset sys.repo.alerts rec.id
              { rec with status := AlertStatusActive
                         resolveRequested := false
                         resolvedAt := none
                         updatedAt := now },
            mset sys.repo.byDedupKey rec.dedupKey
              { rec with status := AlertStatusActive
                         resolveRequested := false
                         resolvedAt := none
                         updatedAt := now },
            updateByParent sys.repo.byParent rec
              { rec with status := AlertStatusActive
                         resolveRequested := false
                         resolvedAt := none
                         updatedAt := now }⟩ := by
    unfold AlertRepository.Update
    rw [show mget sys.repo.alerts
          ({ rec with status := AlertStatusActive
                      resolveRequested := false
                      resolvedAt := none
                      updatedAt := now } : Alert).id = some rec from hrecid]
  rw [hht]
  unfold reactivateAlert
  dsimp only
  simp only [doSetAlert_repo, hrec, hup]
  refine ⟨?_, ?_, ?_, trivial⟩
  · simp [hkey, mget_mset_self]
  · simp only [AlertRepository.GetByDedupKey, withRepo_repo]
    rw [hrdk, mget_mset_self]
  · intro id
    simp only [withRepo_repo]
    rw [mget_mset]
    by_cases h : rec.id = id
    · subst h
      rw [hrecid]
      simp
    · simp [h]

/-- Claim C7 witness: a trigger for the concrete resolved parent a flips it
back to active in place. -/
theorem reactivation_in_place_witness :
    mget (handleTrigger envW 9 "id9" evTrigA sysResolvedA).1.store.alerts
        "a" =
      some { stParentAResolved with status := AlertStatusActive
                                    resolveRequested := false } ∧
    (handleTrigger envW 9 "id9" evTrigA sysResolvedA).1.repo.GetByDedupKey
        "a" =
      some { recParentAResolved with status := AlertStatusActive
                                     resolveRequested := false
                                     resolvedAt := none
                                     updatedAt := 9 } ∧
    (∀ id, (mget (handleTrigger envW 9 "id9" evTrigA
        sysResolvedA).1.repo.alerts id).isSome =
        (mget sysResolvedA.repo.alerts id).isSome) ∧
    (handleTrigger envW 9 "id9" evTrigA sysResolvedA).2 = none :=
  reactivation_in_place envW 9 "id9" evTrigA sysResolvedA stParentAResolved
    recParentAResolved (by rfl) rfl rfl (by rfl) rfl (by rfl)

/-- Claim C8: child creation writes no parent-lookup entry, and a trigger
arriving strictly after the parent entry's expiry (with a dedup key that has
no alert state) sees the lookup return nothing and takes the create-parent
path, producing a durable record of type parent. -/
theorem ttl_expiry_new_parent :
    (∀ now newID ev ps rule sys,
      (createChildAlert now newID ev ps rule sys).1.store.parents =
        sys.store.parents) ∧
    (∀ env (now : Nat) newID ev em rule entry sys,
      sys.store.GetAlert ev.event.dedupKey = none →
      mget env.emRepo ev.event.eventManagerID = some em →
      mget env.ruleRepo em.groupingRuleID = some rule →
      mget sys.store.parents
        (parentKey ev.event.eventManagerID rule.groupingKey
          ev.groupingValue) = some entry →
      entry.expiresAt < now →
      (sys.store.GetParent now ev.event.eventManagerID rule.groupingKey
          ev.groupingValue = none ∧
       handleTrigger env now newID ev sys =
         createParentAlert now newID ev rule em sys ∧
       (handleTrigger env now newID ev sys).1.repo.GetByDedupKey
           ev.event.dedupKey =
         some { NewParentAlert ev.event now with id := newID } ∧
       ({ NewParentAlert ev.event now with id := newID } : Alert).type =
         AlertTypeParent)) := by
  constructor
  · exact createChild_parents
  · intro env now newID ev em rule entry sys hget hem hrule hpe hexp
    have hgp : sys.store.GetParent now ev.event.eventManagerID
        rule.groupingKey ev.groupingValue = none := by
      unfold StateStore.GetParent
      rw [hpe]
      simp [hexp]
    have hht : handleTrigger env now newID ev sys =
        createParentAlert now newID ev rule em sys := by
      unfold handleTrigger
      simp only [hget, hem, hrule, hgp]
    refine ⟨hgp, hht, ?_, rfl⟩
    rw [hht]
    unfold createParentAlert
    dsimp only
    simp [AlertRepository.GetByDedupKey, NewParentAlert, mget_mset_self]

/-- Claim C8 witness: with the concrete expired parent entry (expiry 5) and
a trigger at time 10, a new parent record for dedup key a is created. -/
theorem ttl_expiry_new_parent_witness :
    sysExpiredParent.store.GetParent 10 "em-1" "class" "db" = none ∧
    handleTrigger envW 10 "id7" evTrigA sysExpiredParent =
      createParentAlert 10 "id7" evTrigA ruleW emW sysExpiredParent ∧
    (handleTrigger envW 10 "id7" evTrigA
        sysExpiredParent).1.repo.GetByDedupKey "a" =
      some { NewParentAlert evTrigA.event 10 with id := "id7" } ∧
    ({ NewParentAlert evTrigA.event 10 with id := "id7" } : Alert).type =
      AlertTypeParent :=
  ttl_expiry_new_parent.2 envW 10 "id7" evTrigA emW ruleW ⟨⟨"p0", 0, 0⟩, 5⟩
    sysExpiredParent (by rfl) (by rfl) (by rfl) (by rfl) (by decide)

/-- Claim C10: resolving a parent leaves the parent-lookup entry in place
(completeParentResolution never touches the parents map), so a later trigger
with a fresh dedup key that still finds the entry creates its alert as a
child whose parent_dedup_key references that (possibly already resolved)
parent. -/
theorem resolved_parent_still_groups :
    (∀ env now k st sys,
      (completeParentResolution env now k st sys).1.store.parents =
        sys.store.parents) ∧
    (∀ env (now : Nat) newID ev em rule ps sys,
      sys.store.GetAlert ev.event.dedupKey = none →
      mget env.emRepo ev.event.eventManagerID = some em →
      mget env.ruleRepo em.groupingRuleID = some rule →
      sys.store.GetParent now ev.event.eventManagerID rule.groupingKey
        ev.groupingValue = some ps →
      ps.dedupKey ≠ ev.event.dedupKey →
      (∀ r, sys.repo.GetByDedupKey ps.dedupKey = some r →
        r.dedupKey = ps.dedupKey) →
      ((handleTrigger env now newID ev sys).1.repo.GetByDedupKey
          ev.event.dedupKey =
        some { NewChildAlert ev.event ps.dedupKey now with id := newID } ∧
       ({ NewChildAlert ev.event ps.dedupKey now with id := newID } :
         Alert).type = AlertTypeChild ∧
       ({ NewChildAlert ev.event ps.dedupKey now with id := newID } :
         Alert).parentDedupKey = ps.dedupKey)) := by
  constructor
  · exact complete_parents
  · intro env now newID ev em rule ps sys hget hem hrule hgp hne hbd
    have hht : handleTrigger env now newID ev sys =
        createChildAlert now newID ev ps rule sys := by
      unfold handleTrigger
      simp only [hget, hem, hrule, hgp]
    refine ⟨?_, rfl, rfl⟩
    rw [hht]
    unfold createChildAlert
    dsimp only [NewChildAlert]
    simp only [AlertRepository.GetByDedupKey, doRepoCreate_repo,
      doAddChild_repo, doSetAlert_repo, create_byDedupKey]
    rw [mget_mset_ne _ _ (fun h => hne h.symm)]
    cases hpa : mget sys.repo.byDedupKey ps.dedupKey with
    | none =>
      simp [mget_mset_self]
    | some pa =>
      have hpak : pa.dedupKey = ps.dedupKey := hbd pa hpa
      dsimp only
      split
      · simp [mget_mset_self]
      · rename_i r' hu
        obtain ⟨-, hbd'⟩ := update_alerts hu
        simp only [withRepo_repo, hbd']
        rw [mget_mset_ne _ _ (show (pa.IncrementChildCount now).dedupKey ≠
          ev.event.dedupKey from by
            rw [show (pa.IncrementChildCount now).dedupKey = ps.dedupKey
              from hpak]
            exact hne)]
        simp [mget_mset_self]

/-- Claim C10 witness: with the concrete live parent entry pointing at a, a
trigger for fresh dedup key b becomes a child of a. -/
theorem resolved_parent_still_groups_witness :
    (handleTrigger envW 10 "id8" evTrigB sysLiveParent).1.repo.GetByDedupKey
        "b" =
      some { NewChildAlert evTrigB.event "a" 10 with id := "id8" } ∧
    ({ NewChildAlert evTrigB.event "a" 10 with id := "id8" } : Alert).type =
      AlertTypeChild ∧
    ({ NewChildAlert evTrigB.event "a" 10 with id := "id8" } :
      Alert).parentDedupKey = "a" :=
  resolved_parent_still_groups.2 envW 10 "id8" evTrigB emW ruleW ⟨"a", 0, 0⟩
    sysLiveParent (by rfl) (by rfl) (by rfl) (by rfl) (by decide)
    (fun r h => Option.noConfusion h)

/-- Claim C9: in the create-parent path the effect trace extends, in order,
by the alert-state write, the parent-lookup write, the durable create, and
only then the new-parent notification — so the notification never precedes
the (always succeeding in-memory) state writes. -/
theorem create_parent_ordering (now : Nat) (newID : String)
    (ev : InternalEvent) (rule : GroupingRule) (em : EventManager)
    (sys : Sys) :
    (createParentAlert now newID ev rule em sys).1.effects =
      sys.effects ++
        [Effect.setAlert ⟨ev.event.dedupKey, ev.event.eventManagerID,
           AlertTypeParent, AlertStatusActive, "", false⟩,
         Effect.setParent ev.event.eventManagerID rule.groupingKey
           ev.groupingValue ⟨ev.event.dedupKey, now, 0⟩ rule.TimeWindow,
         Effect.repoCreate { NewParentAlert ev.event now with id := newID },
         Effect.notifyNewParent
           { NewParentAlert ev.event now with id := newID } em] := by
  simp [createParentAlert, NewParentAlert]

end ArgusGo
